import Mathlib

/-!
Verification of the psiphon-tls handshake-message codec and FIPS compliance
policy filter (`boring.go`), as a shallow embedding in Lean 4.

Bytes are modelled as natural numbers; byte sequences as `List Nat`.
Fallible parsing is modelled with `Option`.
-/

set_option maxHeartbeats 1000000

/-! ## Protocol constants

The numeric values of these identifiers live in `common.go`, which is not part
of the sources under study; only their distinctness matters to the codec and
the policy filter.  The values below are the IANA-registered ones. -/

/-- Modelled from the spec: TLS 1.2 protocol version constant (`common.go`). -/
def VersionTLS12 : Nat := 0x0303

/-- Modelled from the spec: curve identifier P-256 (`common.go`). -/
def CurveP256 : Nat := 23
/-- Modelled from the spec: curve identifier P-384 (`common.go`). -/
def CurveP384 : Nat := 24
/-- Modelled from the spec: curve identifier P-521 (`common.go`). -/
def CurveP521 : Nat := 25

/-- Modelled from the spec: cipher suite identifiers (`cipher_suites.go`). -/
def TLS_ECDHE_RSA_WITH_AES_128_GCM_SHA256 : Nat := 0xc02f
def TLS_ECDHE_RSA_WITH_AES_256_GCM_SHA384 : Nat := 0xc030
def TLS_ECDHE_ECDSA_WITH_AES_128_GCM_SHA256 : Nat := 0xc02b
def TLS_ECDHE_ECDSA_WITH_AES_256_GCM_SHA384 : Nat := 0xc02c
def TLS_RSA_WITH_AES_128_GCM_SHA256 : Nat := 0x009c
def TLS_RSA_WITH_AES_256_GCM_SHA384 : Nat := 0x009d

/-- Modelled from the spec: signature scheme identifiers (`common.go`). -/
def PSSWithSHA256 : Nat := 0x0804
def PSSWithSHA384 : Nat := 0x0805
def PSSWithSHA512 : Nat := 0x0806
def PKCS1WithSHA256 : Nat := 0x0401
def PKCS1WithSHA384 : Nat := 0x0501
def PKCS1WithSHA512 : Nat := 0x0601
def ECDSAWithP256AndSHA256 : Nat := 0x0403
def ECDSAWithP384AndSHA384 : Nat := 0x0503
def ECDSAWithP521AndSHA512 : Nat := 0x0603
def PKCS1WithSHA1 : Nat := 0x0201
def ECDSAWithSHA1 : Nat := 0x0203
def Ed25519Scheme : Nat := 0x0807

/-- A signature scheme is SHA-1-based iff it is one of the two SHA-1 schemes. -/
def isSHA1Scheme (s : Nat) : Bool :=
  s == PKCS1WithSHA1 || s == ECDSAWithSHA1

/-- A signature scheme is the Ed25519 scheme. -/
def isEd25519Scheme (s : Nat) : Bool :=
  s == Ed25519Scheme

/-! ## Compliance policy filter (`boring.go`)

`Config` carries the fields `boring.go` reads.  Go slices distinguish `nil`
from empty; that distinction is significant in `fipsCipherSuites` (which tests
`c.CipherSuites == nil`) so slices of the configuration are `Option (List Nat)`.
A `nil` `*Config` receiver is the `none` case of `Option Config`. -/

structure Config where
  MinVersion : Nat
  MaxVersion : Nat
  CipherSuites : Option (List Nat)
  CurvePreferences : Option (List Nat)
deriving DecidableEq, Repr

/-- `fipsMinVersion` from `boring.go`: FIPS requires TLS 1.2. -/
def fipsMinVersion (_c : Option Config) : Nat := VersionTLS12

/-- `fipsMaxVersion` from `boring.go`: FIPS requires TLS 1.2. -/
def fipsMaxVersion (_c : Option Config) : Nat := VersionTLS12

/-- `defaultFIPSCurvePreferences` from `boring.go`. -/
def defaultFIPSCurvePreferences : List Nat := [CurveP256, CurveP384, CurveP521]

/-- Length of a Go slice held as `Option (List Nat)` (`len nil = 0`). -/
def goLen (l : Option (List Nat)) : Nat :=
  match l with
  | none => 0
  | some xs => xs.length

/-- `fipsCurvePreferences` from `boring.go`: if `c == nil` or
`len(c.CurvePreferences) == 0` return the default list, else keep exactly the
configured entries found in the allow-list, in configured order. -/
def fipsCurvePreferences (c : Option Config) : List Nat :=
  match c with
  | none => defaultFIPSCurvePreferences
  | some cfg =>
    if goLen cfg.CurvePreferences = 0 then defaultFIPSCurvePreferences
    else
      (cfg.CurvePreferences.getD []).filter
        (fun id => defaultFIPSCurvePreferences.contains id)

/-- `defaultFIPSCipherSuites` from `boring.go`. -/
def defaultFIPSCipherSuites : List Nat :=
  [TLS_ECDHE_RSA_WITH_AES_128_GCM_SHA256,
   TLS_ECDHE_RSA_WITH_AES_256_GCM_SHA384,
   TLS_ECDHE_ECDSA_WITH_AES_128_GCM_SHA256,
   TLS_ECDHE_ECDSA_WITH_AES_256_GCM_SHA384,
   TLS_RSA_WITH_AES_128_GCM_SHA256,
   TLS_RSA_WITH_AES_256_GCM_SHA384]

/-- `fipsCipherSuites` from `boring.go`: if `c == nil` or
`c.CipherSuites == nil` return the default list, else keep exactly the
configured entries found in the allow-list, in configured order.  Note the
`nil` test: an empty but non-nil configured list falls through to the filter
and yields an empty result. -/
def fipsCipherSuites (c : Option Config) : List Nat :=
  match c with
  | none => defaultFIPSCipherSuites
  | some cfg =>
    match cfg.CipherSuites with
    | none => defaultFIPSCipherSuites
    | some l => l.filter (fun id => defaultFIPSCipherSuites.contains id)

/-! ## Certificates (`isBoringCertificate`) -/

/-- The public key of a certificate, as `isBoringCertificate` inspects it:
the Go type switch sees an `*rsa.PublicKey` (with modulus `N`), an
`*ecdsa.PublicKey` (with a named curve), or any other key type. -/
inductive PublicKey where
  | rsa (N : Nat)
  | ecdsa (curveName : String)
  | otherKey
deriving DecidableEq, Repr

/-- Fuel-driven core of `BitLen`. -/
def bitLenAux : Nat → Nat → Nat
  | 0, _ => 0
  | fuel + 1, n => if n = 0 then 0 else bitLenAux fuel (n / 2) + 1

/-- `math/big.Int.BitLen` on a natural number: the length of the binary
representation (0 for 0). -/
def BitLen (n : Nat) : Nat := bitLenAux n n

/-- An x509 certificate carries many fields; `isBoringCertificate` reads only
the public key.  A couple of the other fields are kept in the model. -/
structure Certificate where
  Raw : List Nat
  SerialNumber : Nat
  PublicKey : PublicKey
deriving DecidableEq, Repr

/-- `isBoringCertificate` from `boring.go`.  The ambient `fipstls.Required()`
flag is passed explicitly as `needFIPS`. -/
def isBoringCertificate (needFIPS : Bool) (c : Certificate) : Bool :=
  if !needFIPS then
    true
  else
    match c.PublicKey with
    | .rsa n =>
      if BitLen n ≠ 2048 && BitLen n ≠ 3072 then false else true
    | .ecdsa name =>
      if name ≠ "P-256" && name ≠ "P-384" then false else true
    | .otherKey => false

/-- Spec-side restatement of the acceptable-key boundary, written from the
claim's words: RSA with modulus bit-length exactly 2048 or 3072, or ECDSA on
curve P-256 or P-384. -/
def acceptableFIPSKeySpec : PublicKey → Prop
  | .rsa n => BitLen n = 2048 ∨ BitLen n = 3072
  | .ecdsa name => name = "P-256" ∨ name = "P-384"
  | .otherKey => False

instance : DecidablePred acceptableFIPSKeySpec := by
  intro k
  cases k <;> simp [acceptableFIPSKeySpec] <;> infer_instance

/-! ## Signature algorithms (`supportedSignatureAlgorithms`) -/

/-- `fipsSupportedSignatureAlgorithms` from `boring.go`. -/
def fipsSupportedSignatureAlgorithms : List Nat :=
  [PSSWithSHA256,
   PSSWithSHA384,
   PSSWithSHA512,
   PKCS1WithSHA256,
   ECDSAWithP256AndSHA256,
   PKCS1WithSHA384,
   ECDSAWithP384AndSHA384,
   PKCS1WithSHA512,
   ECDSAWithP521AndSHA512]

/-- Modelled from the spec: `defaultSupportedSignatureAlgorithms` lives in
`common.go`, which is not among the sources.  Per the spec (§4.2) and the
comments in both versions of the policy file — the FIPS-allowed schemes are a
subset placed at the beginning, followed by the Ed25519 and SHA-1 schemes —
the default list is the FIPS list followed by those excluded schemes. -/
def defaultSupportedSignatureAlgorithms : List Nat :=
  fipsSupportedSignatureAlgorithms ++ [Ed25519Scheme, PKCS1WithSHA1, ECDSAWithSHA1]

/-- `supportedSignatureAlgorithms` from `boring.go`, with the ambient
`fipstls.Required()` flag explicit. -/
def supportedSignatureAlgorithms (needFIPS : Bool) : List Nat :=
  if !needFIPS then defaultSupportedSignatureAlgorithms
  else fipsSupportedSignatureAlgorithms

/-- The hash identifiers of the `signatureAndHash` era of the policy file. -/
def hashSHA1 : Nat := 2
def hashSHA256 : Nat := 4
def hashSHA384 : Nat := 5
def signatureRSA : Nat := 1
def signatureECDSA : Nat := 3

/-- Modelled from the spec: the `signatureAndHash`-era default list
(`common.go`, not among the sources).  Per the comment in the older policy
file, the FIPS-allowed (non-SHA-1) pairs all come first. -/
def defaultSupportedSignatureAlgorithmsSH : List (Nat × Nat) :=
  [(hashSHA256, signatureRSA), (hashSHA256, signatureECDSA),
   (hashSHA384, signatureRSA), (hashSHA384, signatureECDSA),
   (hashSHA1, signatureRSA), (hashSHA1, signatureECDSA)]

/-- `supportedSignatureAlgorithms` from the older (`signatureAndHash`) version
of the policy file: scan from the start until the first SHA-1 entry and return
the prefix before it. -/
def supportedSignatureAlgorithmsSH (needFIPS : Bool) : List (Nat × Nat) :=
  if !needFIPS then defaultSupportedSignatureAlgorithmsSH
  else defaultSupportedSignatureAlgorithmsSH.takeWhile (fun sh => sh.1 ≠ hashSHA1)

/-! ## Sanity examples for the policy filter -/

example : fipsCipherSuites none = defaultFIPSCipherSuites := rfl
example :
    fipsCipherSuites (some ⟨0, 0, some [0xc030, 1, 0x009c], none⟩) =
      [0xc030, 0x009c] := by decide
example : fipsCurvePreferences (some ⟨0, 0, none, some []⟩) =
    defaultFIPSCurvePreferences := by decide
example : fipsCipherSuites (some ⟨0, 0, some [], none⟩) = [] := by decide
example : isBoringCertificate true ⟨[], 0, .ecdsa "P-521"⟩ = false := by decide
example : isBoringCertificate true ⟨[], 0, .ecdsa "P-384"⟩ = true := by decide
example : BitLen 255 = 8 := by decide

/-! ## Codec primitives

`handshake_messages.go` is not among the sources (only its test file is); the
codec below is modelled from the spec: each top-level message is a type-tag
byte, a 3-byte big-endian body length, and the body; variable-length
sub-fields carry 1-, 2- or 3-byte big-endian length prefixes. -/

/-- 2-byte big-endian encoding. -/
def u16be (n : Nat) : List Nat := [n / 256 % 256, n % 256]

/-- 3-byte big-endian encoding. -/
def u24be (n : Nat) : List Nat := [n / 65536 % 256, n / 256 % 256, n % 256]

/-- A field with a 1-byte length prefix. -/
def u8vec (xs : List Nat) : List Nat := xs.length :: xs

/-- A field with a 2-byte length prefix. -/
def u16vec (xs : List Nat) : List Nat := u16be xs.length ++ xs

/-- A field with a 3-byte length prefix. -/
def u24vec (xs : List Nat) : List Nat := u24be xs.length ++ xs

/-- Top-level message framing: type tag, 3-byte body length, body. -/
def mkMsg (tag : Nat) (body : List Nat) : List Nat :=
  tag :: u24be body.length ++ body

/-- Read one byte. -/
def readU8 : List Nat → Option (Nat × List Nat)
  | [] => none
  | b :: rest => some (b, rest)

/-- Read a 2-byte big-endian integer. -/
def readU16 : List Nat → Option (Nat × List Nat)
  | b1 :: b2 :: rest => some (b1 * 256 + b2, rest)
  | _ => none

/-- Read a 3-byte big-endian integer. -/
def readU24 : List Nat → Option (Nat × List Nat)
  | b1 :: b2 :: b3 :: rest => some (b1 * 65536 + b2 * 256 + b3, rest)
  | _ => none

/-- Read exactly `n` bytes, failing when fewer remain (the bound check the
spec demands before any slice). -/
def readBytes (n : Nat) (data : List Nat) : Option (List Nat × List Nat) :=
  if n ≤ data.length then some (data.take n, data.drop n) else none

/-- Read a field with a 1-byte length prefix. -/
def readU8Vec (data : List Nat) : Option (List Nat × List Nat) :=
  match readU8 data with
  | none => none
  | some (n, rest) => readBytes n rest

/-- Read a field with a 2-byte length prefix. -/
def readU16Vec (data : List Nat) : Option (List Nat × List Nat) :=
  match readU16 data with
  | none => none
  | some (n, rest) => readBytes n rest

/-- Read a field with a 3-byte length prefix. -/
def readU24Vec (data : List Nat) : Option (List Nat × List Nat) :=
  match readU24 data with
  | none => none
  | some (n, rest) => readBytes n rest

/-- Drop the 4-byte header without checking the declared body length against
the actual remainder (ClientHello, ServerHello and Finished ignore it, which
is what lets their prefixes parse). -/
def readHeaderLoose : List Nat → Option (List Nat)
  | _ :: _ :: _ :: _ :: rest => some rest
  | _ => none

/-- Drop the 4-byte header, requiring the declared body length to equal the
actual remainder exactly (the non-exempt message types). -/
def readHeaderExact : List Nat → Option (List Nat)
  | _ :: l1 :: l2 :: l3 :: rest =>
    if l1 * 65536 + l2 * 256 + l3 = rest.length then some rest else none
  | _ => none

/-- Decode consecutive byte pairs as big-endian 16-bit values. -/
def pairsToU16 : List Nat → List Nat
  | b1 :: b2 :: rest => (b1 * 256 + b2) :: pairsToU16 rest
  | _ => []

/-! ### Round-trip lemmas for the primitives -/

theorem take_append_of_length {xs ys : List Nat} {n : Nat} (h : xs.length = n) :
    (xs ++ ys).take n = xs := by
  subst h
  simp [List.take_left]

theorem drop_append_of_length {xs ys : List Nat} {n : Nat} (h : xs.length = n) :
    (xs ++ ys).drop n = ys := by
  subst h
  simp [List.drop_left]

theorem u16be_decode {n : Nat} (h : n < 65536) :
    n / 256 % 256 * 256 + n % 256 = n := by
  have h1 : n / 256 < 256 := by omega
  rw [Nat.mod_eq_of_lt h1]
  omega

theorem u24be_decode {n : Nat} (h : n < 16777216) :
    n / 65536 % 256 * 65536 + n / 256 % 256 * 256 + n % 256 = n := by
  have h1 : n / 65536 < 256 := by omega
  rw [Nat.mod_eq_of_lt h1]
  have h2 : n / 65536 * 65536 + n / 256 % 256 * 256 + n % 256
      = n / 256 * 256 + n % 256 := by
    have := Nat.div_add_mod (n / 256) 256
    have h256 : n / 256 / 256 = n / 65536 := by
      rw [Nat.div_div_eq_div_mul]
    omega
  rw [h2]
  omega

theorem readU8_cons (b : Nat) (rest : List Nat) :
    readU8 (b :: rest) = some (b, rest) := rfl

theorem readU16_enc {n : Nat} (h : n < 65536) (rest : List Nat) :
    readU16 (u16be n ++ rest) = some (n, rest) := by
  simp [u16be, readU16, u16be_decode h]

theorem readU24_enc {n : Nat} (h : n < 16777216) (rest : List Nat) :
    readU24 (u24be n ++ rest) = some (n, rest) := by
  simp [u24be, readU24]
  have := u24be_decode h
  omega

theorem readBytes_enc {n : Nat} {xs : List Nat} (h : xs.length = n)
    (rest : List Nat) : readBytes n (xs ++ rest) = some (xs, rest) := by
  unfold readBytes
  rw [if_pos (by simp [List.length_append]; omega)]
  rw [take_append_of_length h, drop_append_of_length h]

theorem readU8Vec_enc (xs : List Nat) (rest : List Nat) :
    readU8Vec (u8vec xs ++ rest) = some (xs, rest) := by
  simp only [u8vec, readU8Vec, List.cons_append, readU8]
  exact readBytes_enc rfl rest

theorem readU16Vec_enc {xs : List Nat} (h : xs.length < 65536)
    (rest : List Nat) : readU16Vec (u16vec xs ++ rest) = some (xs, rest) := by
  simp only [u16vec, readU16Vec, List.append_assoc, readU16_enc h]
  exact readBytes_enc rfl rest

theorem readU24Vec_enc {xs : List Nat} (h : xs.length < 16777216)
    (rest : List Nat) : readU24Vec (u24vec xs ++ rest) = some (xs, rest) := by
  simp only [u24vec, readU24Vec, List.append_assoc, readU24_enc h]
  exact readBytes_enc rfl rest

theorem pairsToU16_cons (b1 b2 : Nat) (rest : List Nat) :
    pairsToU16 (b1 :: b2 :: rest) = (b1 * 256 + b2) :: pairsToU16 rest := rfl

/-- Length of the byte encoding of a 16-bit list. -/
theorem flatten_map_u16be_length (l : List Nat) :
    ((l.map u16be).flatten).length = 2 * l.length := by
  induction l with
  | nil => simp
  | cons x xs ih => simp [u16be, ih]; omega

theorem pairsToU16_enc {l : List Nat} (h : ∀ x ∈ l, x < 65536) :
    pairsToU16 ((l.map u16be).flatten) = l := by
  induction l with
  | nil => simp [pairsToU16]
  | cons x xs ih =>
    have hx : x < 65536 := h x (by simp)
    simp only [List.map_cons, List.flatten, u16be, List.cons_append,
      List.nil_append]
    rw [pairsToU16_cons]
    rw [ih (fun y hy => h y (by simp [hy]))]
    rw [u16be_decode hx]

/-! ## Generic length-prefixed list parsing

Lists of length-prefixed elements are parsed with an explicit fuel argument
(one unit per element; every element consumes at least one byte, so the input
length is always enough fuel).  This keeps every definition structurally
recursive and kernel-evaluable. -/

/-- Parse a whole buffer as a sequence of elements read by `rd`, requiring
exact consumption. -/
def parseVecsF (rd : List Nat → Option (List Nat × List Nat)) :
    Nat → List Nat → Option (List (List Nat))
  | _, [] => some []
  | 0, _ :: _ => none
  | fuel + 1, b :: rest =>
    match rd (b :: rest) with
    | none => none
    | some (x, r) =>
      match parseVecsF rd fuel r with
      | none => none
      | some xs => some (x :: xs)

/-- Parse exactly `n` elements read by `rd`, requiring exact consumption. -/
def parseCountedVecs (rd : List Nat → Option (List Nat × List Nat)) :
    Nat → List Nat → Option (List (List Nat))
  | 0, [] => some []
  | 0, _ :: _ => none
  | n + 1, data =>
    match rd data with
    | none => none
    | some (x, r) =>
      match parseCountedVecs rd n r with
      | none => none
      | some xs => some (x :: xs)

theorem parseVecsF_step (rd : List Nat → Option (List Nat × List Nat))
    (fuel : Nat) (data : List Nat) (h : data ≠ []) :
    parseVecsF rd (fuel + 1) data =
      match rd data with
      | none => none
      | some (x, r) =>
        match parseVecsF rd fuel r with
        | none => none
        | some xs => some (x :: xs) := by
  cases data with
  | nil => exact absurd rfl h
  | cons b rest => rfl

theorem parseCountedVecs_step (rd : List Nat → Option (List Nat × List Nat))
    (n : Nat) (data : List Nat) :
    parseCountedVecs rd (n + 1) data =
      match rd data with
      | none => none
      | some (x, r) =>
        match parseCountedVecs rd n r with
        | none => none
        | some xs => some (x :: xs) := rfl

/-- Generic round-trip for `parseVecsF`: a buffer assembled by an encoder `e`
that `rd` inverts is parsed back to the original list. -/
theorem parseVecsF_enc (rd : List Nat → Option (List Nat × List Nat))
    (e : List Nat → List Nat) (l : List (List Nat))
    (henc : ∀ x ∈ l, ∀ rest, rd (e x ++ rest) = some (x, rest))
    (hne : ∀ x ∈ l, e x ≠ []) :
    ∀ fuel, ((l.map e).flatten).length ≤ fuel →
      parseVecsF rd fuel ((l.map e).flatten) = some l := by
  induction l with
  | nil => intro fuel _; simp [parseVecsF]
  | cons x xs ih =>
    intro fuel hfuel
    simp only [List.map_cons, List.flatten_cons] at hfuel ⊢
    have hx : e x ≠ [] := hne x (by simp)
    have hlen : 1 ≤ (e x).length := by
      cases hex : e x with
      | nil => exact absurd hex hx
      | cons a b => simp
    have hne2 : e x ++ (xs.map e).flatten ≠ [] := by
      cases hex : e x with
      | nil => exact absurd hex hx
      | cons a b => simp
    have hfuel2 : 1 ≤ fuel := by
      rw [List.length_append] at hfuel; omega
    obtain ⟨f, rfl⟩ : ∃ f, fuel = f + 1 := ⟨fuel - 1, by omega⟩
    rw [parseVecsF_step rd f _ hne2]
    rw [henc x (by simp) ((xs.map e).flatten)]
    have ihh := ih (fun y hy rest => henc y (by simp [hy]) rest)
      (fun y hy => hne y (by simp [hy])) f
      (by rw [List.length_append] at hfuel; omega)
    simp [ihh]

/-- Generic round-trip for `parseCountedVecs`. -/
theorem parseCountedVecs_enc (rd : List Nat → Option (List Nat × List Nat))
    (e : List Nat → List Nat) (l : List (List Nat))
    (henc : ∀ x ∈ l, ∀ rest, rd (e x ++ rest) = some (x, rest)) :
    parseCountedVecs rd l.length ((l.map e).flatten) = some l := by
  induction l with
  | nil => simp [parseCountedVecs]
  | cons x xs ih =>
    simp only [List.map_cons, List.flatten_cons, List.length_cons]
    rw [parseCountedVecs_step]
    rw [henc x (by simp) ((xs.map e).flatten)]
    simp [ih (fun y hy rest => henc y (by simp [hy]) rest)]

/-! ## Message type tags (wire values from the TLS registry; `sessionState`
is not wire-transmitted and gets a model-internal tag). -/

def typeClientHello : Nat := 1
def typeServerHello : Nat := 2
def typeNewSessionTicket : Nat := 4
def typeCertificate : Nat := 11
def typeCertificateRequest : Nat := 13
def typeCertificateVerify : Nat := 15
def typeClientKeyExchange : Nat := 16
def typeFinished : Nat := 20
def typeCertificateStatus : Nat := 22
def typeNextProtocol : Nat := 67
def typeSessionState : Nat := 100
def statusTypeOCSP : Nat := 1

/-! ## Header round-trip and anti-prefix lemmas -/

theorem mkMsg_length (tag : Nat) (body : List Nat) :
    (mkMsg tag body).length = 4 + body.length := by
  simp [mkMsg, u24be]
  omega

theorem readHeaderExact_mkMsg {body : List Nat} (h : body.length < 16777216)
    (tag : Nat) : readHeaderExact (mkMsg tag body) = some body := by
  simp only [mkMsg, u24be, List.cons_append, List.nil_append, readHeaderExact]
  rw [if_pos (u24be_decode h)]

theorem readHeaderLoose_mkMsg (tag : Nat) (body : List Nat) :
    readHeaderLoose (mkMsg tag body) = some body := rfl

theorem readHeaderExact_short {data : List Nat} (h : data.length < 4) :
    readHeaderExact data = none := by
  match data with
  | [] => rfl
  | [_] => rfl
  | [_, _] => rfl
  | [_, _, _] => rfl
  | _ :: _ :: _ :: _ :: _ => simp only [List.length_cons] at h; omega

/-- The anti-prefix core: with the exact header-length check, no proper
prefix of a framed message parses past the header. -/
theorem readHeaderExact_take {body : List Nat} (h : body.length < 16777216)
    (tag : Nat) {k : Nat} (hk : k < (mkMsg tag body).length) :
    readHeaderExact ((mkMsg tag body).take k) = none := by
  rw [mkMsg_length] at hk
  by_cases h4 : k < 4
  · apply readHeaderExact_short
    simp only [List.length_take]
    omega
  · obtain ⟨j, rfl⟩ : ∃ j, k = j + 4 := ⟨k - 4, by omega⟩
    have hj : j < body.length := by omega
    have h44 : j + 4 = (((j + 1) + 1) + 1) + 1 := by omega
    simp only [mkMsg, u24be, List.cons_append, List.nil_append, h44,
      List.take_succ_cons, readHeaderExact]
    rw [if_neg]
    have hd := u24be_decode h
    simp only [List.length_take]
    omega

/-! ## The simple message variants

Modelled from the spec: `handshake_messages.go` is not among the sources
(only its test file is); each variant below is built from the field list in
spec §3 and the length-encoding rules in spec §4.1. -/

/-- Certificate: ordered list of DER-encoded certificate blobs. -/
structure certificateMsg where
  certificates : List (List Nat)
deriving DecidableEq, Repr

def certificateMsg.body (m : certificateMsg) : List Nat :=
  u24vec ((m.certificates.map u24vec).flatten)

def certificateMsg.marshal (m : certificateMsg) : List Nat :=
  mkMsg typeCertificate m.body

def certificateMsg.unmarshal (data : List Nat) : Option certificateMsg :=
  match readHeaderExact data with
  | none => none
  | some body =>
    match readU24Vec body with
    | none => none
    | some (lb, rest) =>
      match rest with
      | [] =>
        match parseVecsF readU24Vec lb.length lb with
        | none => none
        | some certs => some ⟨certs⟩
      | _ => none

def validCertificateMsg (m : certificateMsg) : Prop :=
  (∀ c ∈ m.certificates, c.length < 16777216) ∧
  ((m.certificates.map u24vec).flatten).length + 3 < 16777216

instance : ∀ m, Decidable (validCertificateMsg m) := by
  intro m; unfold validCertificateMsg; infer_instance

/-- CertificateRequest: certificate-type byte list, list of DER-encoded
distinguished names. -/
structure certificateRequestMsg where
  certificateTypes : List Nat
  certificateAuthorities : List (List Nat)
deriving DecidableEq, Repr

def certificateRequestMsg.body (m : certificateRequestMsg) : List Nat :=
  u8vec m.certificateTypes ++
    u16vec ((m.certificateAuthorities.map u16vec).flatten)

def certificateRequestMsg.marshal (m : certificateRequestMsg) : List Nat :=
  mkMsg typeCertificateRequest m.body

def certificateRequestMsg.unmarshal (data : List Nat) :
    Option certificateRequestMsg :=
  match readHeaderExact data with
  | none => none
  | some body =>
    match readU8Vec body with
    | none => none
    | some (types, r1) =>
      match readU16Vec r1 with
      | none => none
      | some (lb, rest) =>
        match rest with
        | [] =>
          match parseVecsF readU16Vec lb.length lb with
          | none => none
          | some cas => some ⟨types, cas⟩
        | _ => none

def validCertificateRequestMsg (m : certificateRequestMsg) : Prop :=
  m.certificateTypes.length < 256 ∧
  (∀ ca ∈ m.certificateAuthorities, ca.length < 65536) ∧
  ((m.certificateAuthorities.map u16vec).flatten).length < 65536

instance : ∀ m, Decidable (validCertificateRequestMsg m) := by
  intro m; unfold validCertificateRequestMsg; infer_instance

/-- CertificateVerify: opaque signature bytes. -/
structure certificateVerifyMsg where
  signature : List Nat
deriving DecidableEq, Repr

def certificateVerifyMsg.body (m : certificateVerifyMsg) : List Nat :=
  u16vec m.signature

def certificateVerifyMsg.marshal (m : certificateVerifyMsg) : List Nat :=
  mkMsg typeCertificateVerify m.body

def certificateVerifyMsg.unmarshal (data : List Nat) :
    Option certificateVerifyMsg :=
  match readHeaderExact data with
  | none => none
  | some body =>
    match readU16Vec body with
    | none => none
    | some (sig, rest) =>
      match rest with
      | [] => some ⟨sig⟩
      | _ => none

def validCertificateVerifyMsg (m : certificateVerifyMsg) : Prop :=
  m.signature.length < 65536

instance : ∀ m, Decidable (validCertificateVerifyMsg m) := by
  intro m; unfold validCertificateVerifyMsg; infer_instance

/-- CertificateStatus: status type tag plus status-type-specific payload;
only the OCSP payload is defined, an unknown tag carries an empty payload. -/
structure certificateStatusMsg where
  statusType : Nat
  response : List Nat
deriving DecidableEq, Repr

def certificateStatusMsg.body (m : certificateStatusMsg) : List Nat :=
  m.statusType :: (if m.statusType = statusTypeOCSP then u24vec m.response else [])

def certificateStatusMsg.marshal (m : certificateStatusMsg) : List Nat :=
  mkMsg typeCertificateStatus m.body

def certificateStatusMsg.unmarshal (data : List Nat) :
    Option certificateStatusMsg :=
  match readHeaderExact data with
  | none => none
  | some body =>
    match readU8 body with
    | none => none
    | some (t, r) =>
      if t = statusTypeOCSP then
        match readU24Vec r with
        | none => none
        | some (resp, rest) =>
          match rest with
          | [] => some ⟨t, resp⟩
          | _ => none
      else
        match r with
        | [] => some ⟨t, []⟩
        | _ => none

def validCertificateStatusMsg (m : certificateStatusMsg) : Prop :=
  m.statusType < 256 ∧ m.response.length + 4 < 16777216 ∧
  (m.statusType ≠ statusTypeOCSP → m.response = [])

instance : ∀ m, Decidable (validCertificateStatusMsg m) := by
  intro m; unfold validCertificateStatusMsg; infer_instance

/-- ClientKeyExchange: opaque ciphertext bytes, delimited by the header. -/
structure clientKeyExchangeMsg where
  ciphertext : List Nat
deriving DecidableEq, Repr

def clientKeyExchangeMsg.marshal (m : clientKeyExchangeMsg) : List Nat :=
  mkMsg typeClientKeyExchange m.ciphertext

def clientKeyExchangeMsg.unmarshal (data : List Nat) :
    Option clientKeyExchangeMsg :=
  match readHeaderExact data with
  | none => none
  | some body => some ⟨body⟩

def validClientKeyExchangeMsg (m : clientKeyExchangeMsg) : Prop :=
  m.ciphertext.length < 16777216

instance : ∀ m, Decidable (validClientKeyExchangeMsg m) := by
  intro m; unfold validClientKeyExchangeMsg; infer_instance

/-- Finished: fixed-length verification data (12 bytes in this profile).  The
parser takes whatever follows the header — the length varies across protocol
versions, which is why Finished is exempt from the anti-prefix law. -/
structure finishedMsg where
  verifyData : List Nat
deriving DecidableEq, Repr

def finishedMsg.marshal (m : finishedMsg) : List Nat :=
  mkMsg typeFinished m.verifyData

def finishedMsg.unmarshal (data : List Nat) : Option finishedMsg :=
  match readHeaderLoose data with
  | none => none
  | some body => some ⟨body⟩

def validFinishedMsg (m : finishedMsg) : Prop :=
  m.verifyData.length = 12

instance : ∀ m, Decidable (validFinishedMsg m) := by
  intro m; unfold validFinishedMsg; infer_instance

/-- NextProto: a single protocol-name string plus deterministic padding. -/
structure nextProtoMsg where
  proto : List Nat
deriving DecidableEq, Repr

/-- Padding length for NextProto: pads the body to a multiple of 32. -/
def nextProtoPadding (protoLen : Nat) : Nat := 32 - (protoLen + 2) % 32

def nextProtoMsg.body (m : nextProtoMsg) : List Nat :=
  u8vec m.proto ++ u8vec (List.replicate (nextProtoPadding m.proto.length) 0)

def nextProtoMsg.marshal (m : nextProtoMsg) : List Nat :=
  mkMsg typeNextProtocol m.body

def nextProtoMsg.unmarshal (data : List Nat) : Option nextProtoMsg :=
  match readHeaderExact data with
  | none => none
  | some body =>
    match readU8Vec body with
    | none => none
    | some (proto, r) =>
      match readU8Vec r with
      | none => none
      | some (_padding, rest) =>
        match rest with
        | [] => some ⟨proto⟩
        | _ => none

def validNextProtoMsg (m : nextProtoMsg) : Prop :=
  m.proto.length < 256

instance : ∀ m, Decidable (validNextProtoMsg m) := by
  intro m; unfold validNextProtoMsg; infer_instance

/-- NewSessionTicket: opaque ticket bytes. -/
structure newSessionTicketMsg where
  ticket : List Nat
deriving DecidableEq, Repr

def newSessionTicketMsg.body (m : newSessionTicketMsg) : List Nat :=
  u16vec m.ticket

def newSessionTicketMsg.marshal (m : newSessionTicketMsg) : List Nat :=
  mkMsg typeNewSessionTicket m.body

def newSessionTicketMsg.unmarshal (data : List Nat) :
    Option newSessionTicketMsg :=
  match readHeaderExact data with
  | none => none
  | some body =>
    match readU16Vec body with
    | none => none
    | some (ticket, rest) =>
      match rest with
      | [] => some ⟨ticket⟩
      | _ => none

def validNewSessionTicketMsg (m : newSessionTicketMsg) : Prop :=
  m.ticket.length < 65536

instance : ∀ m, Decidable (validNewSessionTicketMsg m) := by
  intro m; unfold validNewSessionTicketMsg; infer_instance

/-- SessionState: persisted session-resumption state — version, cipher suite,
master secret, certificate chain — under the same codec discipline. -/
structure sessionState where
  vers : Nat
  cipherSuite : Nat
  masterSecret : List Nat
  certificates : List (List Nat)
deriving DecidableEq, Repr

def sessionState.body (s : sessionState) : List Nat :=
  u16be s.vers ++ u16be s.cipherSuite ++ u16vec s.masterSecret ++
    u16be s.certificates.length ++ (s.certificates.map u16vec).flatten

def sessionState.marshal (s : sessionState) : List Nat :=
  mkMsg typeSessionState s.body

def sessionState.unmarshal (data : List Nat) : Option sessionState :=
  match readHeaderExact data with
  | none => none
  | some body =>
    match readU16 body with
    | none => none
    | some (vers, r1) =>
      match readU16 r1 with
      | none => none
      | some (suite, r2) =>
        match readU16Vec r2 with
        | none => none
        | some (ms, r3) =>
          match readU16 r3 with
          | none => none
          | some (count, r4) =>
            match parseCountedVecs readU16Vec count r4 with
            | none => none
            | some certs => some ⟨vers, suite, ms, certs⟩

def validSessionState (s : sessionState) : Prop :=
  s.vers < 65536 ∧ s.cipherSuite < 65536 ∧ s.masterSecret.length < 65536 ∧
  s.certificates.length < 65536 ∧
  (∀ c ∈ s.certificates, c.length < 65536) ∧
  ((s.certificates.map u16vec).flatten).length + s.masterSecret.length + 8 <
    16777216

instance : ∀ s, Decidable (validSessionState s) := by
  intro s; unfold validSessionState; infer_instance

/-! ## Round-trip theorems for the simple variants -/

theorem readU8Vec_enc_nil (xs : List Nat) :
    readU8Vec (u8vec xs) = some (xs, []) := by
  have := readU8Vec_enc xs []
  simpa using this

theorem readU16Vec_enc_nil {xs : List Nat} (h : xs.length < 65536) :
    readU16Vec (u16vec xs) = some (xs, []) := by
  have := readU16Vec_enc h []
  simpa using this

theorem readU24Vec_enc_nil {xs : List Nat} (h : xs.length < 16777216) :
    readU24Vec (u24vec xs) = some (xs, []) := by
  have := readU24Vec_enc h []
  simpa using this

theorem u8vec_length (xs : List Nat) : (u8vec xs).length = 1 + xs.length := by
  simp [u8vec]; omega

theorem u16vec_length (xs : List Nat) : (u16vec xs).length = 2 + xs.length := by
  simp [u16vec, u16be]; omega

theorem u24vec_length (xs : List Nat) : (u24vec xs).length = 3 + xs.length := by
  simp [u24vec, u24be]; omega

theorem u24vec_ne_nil (xs : List Nat) : u24vec xs ≠ [] := by
  simp [u24vec, u24be]

theorem u16vec_ne_nil (xs : List Nat) : u16vec xs ≠ [] := by
  simp [u16vec, u16be]

theorem certificateMsg_roundtrip (m : certificateMsg)
    (h : validCertificateMsg m) :
    certificateMsg.unmarshal m.marshal = some m := by
  obtain ⟨h1, h2⟩ := h
  have hflat : ((m.certificates.map u24vec).flatten).length < 16777216 := by
    omega
  have hbody : (u24vec ((m.certificates.map u24vec).flatten)).length <
      16777216 := by
    rw [u24vec_length]; omega
  have hcerts := parseVecsF_enc readU24Vec u24vec m.certificates
    (fun x hx rest => readU24Vec_enc (h1 x hx) rest)
    (fun x _ => u24vec_ne_nil x) _ (le_refl _)
  simp only [certificateMsg.unmarshal, certificateMsg.marshal,
    certificateMsg.body, readHeaderExact_mkMsg hbody,
    readU24Vec_enc_nil hflat, hcerts]

theorem certificateRequestMsg_roundtrip (m : certificateRequestMsg)
    (h : validCertificateRequestMsg m) :
    certificateRequestMsg.unmarshal m.marshal = some m := by
  obtain ⟨h1, h2, h3⟩ := h
  have hbody : (u8vec m.certificateTypes ++
      u16vec ((m.certificateAuthorities.map u16vec).flatten)).length <
      16777216 := by
    rw [List.length_append, u8vec_length, u16vec_length]; omega
  have hcas := parseVecsF_enc readU16Vec u16vec m.certificateAuthorities
    (fun x hx rest => readU16Vec_enc (h2 x hx) rest)
    (fun x _ => u16vec_ne_nil x) _ (le_refl _)
  simp only [certificateRequestMsg.unmarshal, certificateRequestMsg.marshal,
    certificateRequestMsg.body, readHeaderExact_mkMsg hbody,
    readU8Vec_enc, readU16Vec_enc_nil h3, hcas]

theorem certificateVerifyMsg_roundtrip (m : certificateVerifyMsg)
    (h : validCertificateVerifyMsg m) :
    certificateVerifyMsg.unmarshal m.marshal = some m := by
  unfold validCertificateVerifyMsg at h
  have hbody : (u16vec m.signature).length < 16777216 := by
    rw [u16vec_length]; omega
  simp only [certificateVerifyMsg.unmarshal, certificateVerifyMsg.marshal,
    certificateVerifyMsg.body, readHeaderExact_mkMsg hbody,
    readU16Vec_enc_nil h]

theorem certificateStatusMsg_roundtrip (m : certificateStatusMsg)
    (h : validCertificateStatusMsg m) :
    certificateStatusMsg.unmarshal m.marshal = some m := by
  obtain ⟨t, resp⟩ := m
  simp only [validCertificateStatusMsg] at h
  obtain ⟨h1, h2, h3⟩ := h
  by_cases ht : t = statusTypeOCSP
  · subst ht
    have hresp : resp.length < 16777216 := by omega
    have hbody : (statusTypeOCSP :: u24vec resp).length < 16777216 := by
      simp only [List.length_cons, u24vec_length]; omega
    simp only [certificateStatusMsg.unmarshal, certificateStatusMsg.marshal,
      certificateStatusMsg.body, if_pos rfl, readHeaderExact_mkMsg hbody,
      readU8, readU24Vec_enc_nil hresp, if_true]
  · have hre : resp = [] := h3 ht
    subst hre
    have hbody : (t :: ([] : List Nat)).length < 16777216 := by simp
    simp only [certificateStatusMsg.unmarshal, certificateStatusMsg.marshal,
      certificateStatusMsg.body, if_neg ht, readHeaderExact_mkMsg hbody,
      readU8]

theorem clientKeyExchangeMsg_roundtrip (m : clientKeyExchangeMsg)
    (h : validClientKeyExchangeMsg m) :
    clientKeyExchangeMsg.unmarshal m.marshal = some m := by
  unfold validClientKeyExchangeMsg at h
  simp only [clientKeyExchangeMsg.unmarshal, clientKeyExchangeMsg.marshal,
    readHeaderExact_mkMsg h]

theorem finishedMsg_roundtrip (m : finishedMsg) :
    finishedMsg.unmarshal m.marshal = some m := by
  simp only [finishedMsg.unmarshal, finishedMsg.marshal,
    readHeaderLoose_mkMsg]

theorem nextProtoMsg_roundtrip (m : nextProtoMsg)
    (h : validNextProtoMsg m) :
    nextProtoMsg.unmarshal m.marshal = some m := by
  unfold validNextProtoMsg at h
  have hpad : (List.replicate (nextProtoPadding m.proto.length) 0).length ≤
      32 := by
    simp only [List.length_replicate, nextProtoPadding]
    omega
  have hbody : (u8vec m.proto ++
      u8vec (List.replicate (nextProtoPadding m.proto.length) 0)).length <
      16777216 := by
    rw [List.length_append, u8vec_length, u8vec_length]; omega
  simp only [nextProtoMsg.unmarshal, nextProtoMsg.marshal,
    nextProtoMsg.body, readHeaderExact_mkMsg hbody, readU8Vec_enc,
    readU8Vec_enc_nil]

theorem newSessionTicketMsg_roundtrip (m : newSessionTicketMsg)
    (h : validNewSessionTicketMsg m) :
    newSessionTicketMsg.unmarshal m.marshal = some m := by
  unfold validNewSessionTicketMsg at h
  have hbody : (u16vec m.ticket).length < 16777216 := by
    rw [u16vec_length]; omega
  simp only [newSessionTicketMsg.unmarshal, newSessionTicketMsg.marshal,
    newSessionTicketMsg.body, readHeaderExact_mkMsg hbody,
    readU16Vec_enc_nil h]

theorem sessionState_roundtrip (s : sessionState)
    (h : validSessionState s) :
    sessionState.unmarshal s.marshal = some s := by
  obtain ⟨h1, h2, h3, h4, h5, h6⟩ := h
  have hbody : (u16be s.vers ++ (u16be s.cipherSuite ++
      (u16vec s.masterSecret ++ (u16be s.certificates.length ++
        (s.certificates.map u16vec).flatten)))).length < 16777216 := by
    simp only [List.length_append, u16vec_length, u16be, List.length_cons,
      List.length_nil]
    omega
  have hcerts := parseCountedVecs_enc readU16Vec u16vec s.certificates
    (fun x hx rest => readU16Vec_enc (h5 x hx) rest)
  simp only [sessionState.unmarshal, sessionState.marshal,
    sessionState.body, List.append_assoc, readHeaderExact_mkMsg hbody,
    readU16_enc h1, readU16_enc h2, readU16Vec_enc h3,
    readU16_enc h4, hcerts]

/-! ## Anti-prefix theorems: the exact header-length check makes every proper
byte-prefix of a valid encoding fail for the eight non-exempt variants. -/

theorem certificateMsg_truncFails (m : certificateMsg)
    (h : validCertificateMsg m) (k : Nat) (hk : k < m.marshal.length) :
    certificateMsg.unmarshal (m.marshal.take k) = none := by
  obtain ⟨h1, h2⟩ := h
  have hbody : (u24vec ((m.certificates.map u24vec).flatten)).length <
      16777216 := by
    rw [u24vec_length]; omega
  simp only [certificateMsg.marshal, certificateMsg.body] at hk ⊢
  simp only [certificateMsg.unmarshal, readHeaderExact_take hbody _ hk]

theorem certificateRequestMsg_truncFails (m : certificateRequestMsg)
    (h : validCertificateRequestMsg m) (k : Nat)
    (hk : k < m.marshal.length) :
    certificateRequestMsg.unmarshal (m.marshal.take k) = none := by
  obtain ⟨h1, h2, h3⟩ := h
  have hbody : (u8vec m.certificateTypes ++
      u16vec ((m.certificateAuthorities.map u16vec).flatten)).length <
      16777216 := by
    rw [List.length_append, u8vec_length, u16vec_length]; omega
  simp only [certificateRequestMsg.marshal, certificateRequestMsg.body]
    at hk ⊢
  simp only [certificateRequestMsg.unmarshal,
    readHeaderExact_take hbody _ hk]

theorem certificateVerifyMsg_truncFails (m : certificateVerifyMsg)
    (h : validCertificateVerifyMsg m) (k : Nat)
    (hk : k < m.marshal.length) :
    certificateVerifyMsg.unmarshal (m.marshal.take k) = none := by
  unfold validCertificateVerifyMsg at h
  have hbody : (u16vec m.signature).length < 16777216 := by
    rw [u16vec_length]; omega
  simp only [certificateVerifyMsg.marshal, certificateVerifyMsg.body]
    at hk ⊢
  simp only [certificateVerifyMsg.unmarshal,
    readHeaderExact_take hbody _ hk]

theorem certificateStatusMsg_truncFails (m : certificateStatusMsg)
    (h : validCertificateStatusMsg m) (k : Nat)
    (hk : k < m.marshal.length) :
    certificateStatusMsg.unmarshal (m.marshal.take k) = none := by
  obtain ⟨h1, h2, h3⟩ := h
  have hbody : (certificateStatusMsg.body m).length < 16777216 := by
    rw [certificateStatusMsg.body]
    by_cases ht : m.statusType = statusTypeOCSP
    · rw [if_pos ht]
      simp only [List.length_cons, u24vec_length]; omega
    · rw [if_neg ht]
      simp
  simp only [certificateStatusMsg.marshal] at hk ⊢
  simp only [certificateStatusMsg.unmarshal,
    readHeaderExact_take hbody _ hk]

theorem clientKeyExchangeMsg_truncFails (m : clientKeyExchangeMsg)
    (h : validClientKeyExchangeMsg m) (k : Nat)
    (hk : k < m.marshal.length) :
    clientKeyExchangeMsg.unmarshal (m.marshal.take k) = none := by
  unfold validClientKeyExchangeMsg at h
  simp only [clientKeyExchangeMsg.marshal] at hk ⊢
  simp only [clientKeyExchangeMsg.unmarshal,
    readHeaderExact_take h _ hk]

theorem nextProtoMsg_truncFails (m : nextProtoMsg)
    (h : validNextProtoMsg m) (k : Nat) (hk : k < m.marshal.length) :
    nextProtoMsg.unmarshal (m.marshal.take k) = none := by
  unfold validNextProtoMsg at h
  have hbody : (u8vec m.proto ++
      u8vec (List.replicate (nextProtoPadding m.proto.length) 0)).length <
      16777216 := by
    rw [List.length_append, u8vec_length, u8vec_length]
    simp only [List.length_replicate, nextProtoPadding]
    omega
  simp only [nextProtoMsg.marshal, nextProtoMsg.body] at hk ⊢
  simp only [nextProtoMsg.unmarshal, readHeaderExact_take hbody _ hk]

theorem newSessionTicketMsg_truncFails (m : newSessionTicketMsg)
    (h : validNewSessionTicketMsg m) (k : Nat)
    (hk : k < m.marshal.length) :
    newSessionTicketMsg.unmarshal (m.marshal.take k) = none := by
  unfold validNewSessionTicketMsg at h
  have hbody : (u16vec m.ticket).length < 16777216 := by
    rw [u16vec_length]; omega
  simp only [newSessionTicketMsg.marshal, newSessionTicketMsg.body] at hk ⊢
  simp only [newSessionTicketMsg.unmarshal,
    readHeaderExact_take hbody _ hk]

theorem sessionState_truncFails (s : sessionState)
    (h : validSessionState s) (k : Nat) (hk : k < s.marshal.length) :
    sessionState.unmarshal (s.marshal.take k) = none := by
  obtain ⟨h1, h2, h3, h4, h5, h6⟩ := h
  have hbody : (sessionState.body s).length < 16777216 := by
    rw [sessionState.body]
    simp only [List.length_append, u16vec_length, u16be, List.length_cons,
      List.length_nil]
    omega
  simp only [sessionState.marshal] at hk ⊢
  simp only [sessionState.unmarshal, readHeaderExact_take hbody _ hk]

/-! ## Extension machinery (ClientHello / ServerHello)

Extensions are (2-byte type, 2-byte length, payload) entries inside an outer
2-byte-length-prefixed block; the block is optional and its complete absence
is valid and distinct from "present but empty" (spec §4.1).  Type numbers are
the registry ones (the spec fixes only their distinctness). -/

def extensionServerName : Nat := 0
def extensionStatusRequest : Nat := 5
def extensionSupportedCurves : Nat := 10
def extensionSupportedPoints : Nat := 11
def extensionSignatureAlgorithms : Nat := 13
def extensionALPN : Nat := 16
def extensionSCT : Nat := 18
def extensionSessionTicket : Nat := 35
def extensionNextProtoNeg : Nat := 13172

/-- One (type, payload) extension entry on the wire. -/
def encodeExt (e : Nat × List Nat) : List Nat := u16be e.1 ++ u16vec e.2

/-- A sequence of extension entries on the wire. -/
def encodeExts (exts : List (Nat × List Nat)) : List Nat :=
  (exts.map encodeExt).flatten

/-- Fuel-driven extension-sequence parser (unknown types are kept as raw
entries; skipping happens in the per-message application step). -/
def parseExtsF : Nat → List Nat → Option (List (Nat × List Nat))
  | _, [] => some []
  | 0, _ :: _ => none
  | fuel + 1, b :: rest =>
    match readU16 (b :: rest) with
    | none => none
    | some (t, r1) =>
      match readU16Vec r1 with
      | none => none
      | some (p, r2) =>
        match parseExtsF fuel r2 with
        | none => none
        | some exts => some ((t, p) :: exts)

def parseExts (data : List Nat) : Option (List (Nat × List Nat)) :=
  parseExtsF data.length data

theorem parseExtsF_step (fuel : Nat) (data : List Nat) (h : data ≠ []) :
    parseExtsF (fuel + 1) data =
      match readU16 data with
      | none => none
      | some (t, r1) =>
        match readU16Vec r1 with
        | none => none
        | some (p, r2) =>
          match parseExtsF fuel r2 with
          | none => none
          | some exts => some ((t, p) :: exts) := by
  cases data with
  | nil => exact absurd rfl h
  | cons b rest => rfl

theorem encodeExt_length (e : Nat × List Nat) :
    (encodeExt e).length = 4 + e.2.length := by
  simp [encodeExt, u16be, u16vec]
  omega

theorem parseExtsF_enc (exts : List (Nat × List Nat))
    (hb : ∀ e ∈ exts, e.1 < 65536 ∧ e.2.length < 65536) :
    ∀ fuel, (encodeExts exts).length ≤ fuel →
      parseExtsF fuel (encodeExts exts) = some exts := by
  induction exts with
  | nil => intro fuel _; simp [encodeExts, parseExtsF]
  | cons e rest ih =>
    intro fuel hfuel
    obtain ⟨t, p⟩ := e
    have ht : t < 65536 := by simpa using (hb (t, p) (by simp)).1
    have hp : p.length < 65536 := by simpa using (hb (t, p) (by simp)).2
    simp only [encodeExts, List.map_cons, List.flatten_cons] at hfuel ⊢
    have hne : encodeExt (t, p) ++ (rest.map encodeExt).flatten ≠ [] := by
      simp [encodeExt, u16be]
    have hlen : 4 + p.length ≤ (encodeExt (t, p) ++
        (rest.map encodeExt).flatten).length := by
      rw [List.length_append, encodeExt_length]
      simp only
      omega
    obtain ⟨f, rfl⟩ : ∃ f, fuel = f + 1 := ⟨fuel - 1, by omega⟩
    have ihh := ih (fun x hx => hb x (by simp [hx])) f (by
      simp only [encodeExts]
      rw [List.length_append, encodeExt_length] at hfuel
      simp only at hfuel
      omega)
    simp only [encodeExts] at ihh
    rw [parseExtsF_step _ _ hne]
    simp only [encodeExt, List.append_assoc, readU16_enc ht,
      readU16Vec_enc hp, ihh]

/-- Reader for one ALPN/NPN protocol-name entry: 1-byte length (must be
nonzero), then the name. -/
def readProto (data : List Nat) : Option (List Nat × List Nat) :=
  match readU8 data with
  | none => none
  | some (n, rest) => if n = 0 then none else readBytes n rest

/-- Reader for one SCT entry: 2-byte length (must be nonzero), then the
timestamp bytes (RFC 6962 §3.3.1: every entry must be non-empty). -/
def readSCT (data : List Nat) : Option (List Nat × List Nat) :=
  match readU16 data with
  | none => none
  | some (n, rest) => if n = 0 then none else readBytes n rest

theorem readProto_enc {x : List Nat} (h : x ≠ []) (rest : List Nat) :
    readProto (u8vec x ++ rest) = some (x, rest) := by
  simp only [u8vec, List.cons_append, readProto, readU8]
  rw [if_neg (by simp [h])]
  exact readBytes_enc rfl rest

theorem readSCT_enc {x : List Nat} (hne : x ≠ []) (hlen : x.length < 65536)
    (rest : List Nat) : readSCT (u16vec x ++ rest) = some (x, rest) := by
  simp only [u16vec, readSCT, List.append_assoc, readU16_enc hlen]
  rw [if_neg (by simp [hne])]
  exact readBytes_enc rfl rest

theorem u8vec_ne_nil (xs : List Nat) : u8vec xs ≠ [] := by
  simp [u8vec]

theorem parseVecsF_readProto_single {p : List Nat} (hne : p ≠ []) :
    parseVecsF readProto (u8vec p).length (u8vec p) = some [p] := by
  have hlen : (u8vec p).length = p.length + 1 := by simp [u8vec]
  rw [hlen]
  rw [parseVecsF_step _ _ _ (u8vec_ne_nil p)]
  have hrd := readProto_enc hne ([] : List Nat)
  rw [List.append_nil] at hrd
  rw [hrd]
  simp [parseVecsF]

/-! ## ClientHello -/

structure clientHelloMsg where
  vers : Nat
  random : List Nat
  sessionId : List Nat
  cipherSuites : List Nat
  compressionMethods : List Nat
  nextProtoNeg : Bool
  serverName : List Nat
  ocspStapling : Bool
  supportedCurves : List Nat
  supportedPoints : List Nat
  ticketSupported : Bool
  sessionTicket : List Nat
  supportedSignatureAlgorithms : List Nat
  alpnProtocols : List (List Nat)
  scts : Bool
deriving DecidableEq, Repr

/-- Server-name-indication payload: a one-entry server-name list with name
type 0. -/
def sniPayload (name : List Nat) : List Nat := u16vec (0 :: u16vec name)

/-- OCSP status-request payload: status type 1, empty responder-id list and
empty request extensions. -/
def ocspPayload : List Nat := [1, 0, 0, 0, 0]

/-- Supported-curves payload: 2-byte list byte-length, 2 bytes per curve. -/
def curvesPayload (curves : List Nat) : List Nat :=
  u16vec ((curves.map u16be).flatten)

/-- Signature-algorithm list payload: 2-byte byte-length, 2 bytes each. -/
def sigAlgsPayload (algs : List Nat) : List Nat :=
  u16vec ((algs.map u16be).flatten)

/-- ALPN payload: 2-byte list byte-length, then 1-byte-length-prefixed
protocol names. -/
def alpnPayload (protos : List (List Nat)) : List Nat :=
  u16vec ((protos.map u8vec).flatten)

def chPieceNPN (m : clientHelloMsg) : List (Nat × List Nat) :=
  if m.nextProtoNeg then [(extensionNextProtoNeg, [])] else []

def chPieceSNI (m : clientHelloMsg) : List (Nat × List Nat) :=
  if m.serverName ≠ [] then [(extensionServerName, sniPayload m.serverName)]
  else []

def chPieceOCSP (m : clientHelloMsg) : List (Nat × List Nat) :=
  if m.ocspStapling then [(extensionStatusRequest, ocspPayload)] else []

def chPieceCurves (m : clientHelloMsg) : List (Nat × List Nat) :=
  if m.supportedCurves ≠ [] then
    [(extensionSupportedCurves, curvesPayload m.supportedCurves)]
  else []

def chPiecePoints (m : clientHelloMsg) : List (Nat × List Nat) :=
  if m.supportedPoints ≠ [] then
    [(extensionSupportedPoints, u8vec m.supportedPoints)]
  else []

def chPieceTicket (m : clientHelloMsg) : List (Nat × List Nat) :=
  if m.ticketSupported then [(extensionSessionTicket, m.sessionTicket)]
  else []

def chPieceSigAlgs (m : clientHelloMsg) : List (Nat × List Nat) :=
  if m.supportedSignatureAlgorithms ≠ [] then
    [(extensionSignatureAlgorithms, sigAlgsPayload m.supportedSignatureAlgorithms)]
  else []

def chPieceALPN (m : clientHelloMsg) : List (Nat × List Nat) :=
  if m.alpnProtocols ≠ [] then [(extensionALPN, alpnPayload m.alpnProtocols)]
  else []

def chPieceSCT (m : clientHelloMsg) : List (Nat × List Nat) :=
  if m.scts then [(extensionSCT, [])] else []

/-- The extension entries of a ClientHello, in marshalling order; an absent
optional field contributes no entry. -/
def clientHelloExts (m : clientHelloMsg) : List (Nat × List Nat) :=
  chPieceNPN m ++ chPieceSNI m ++ chPieceOCSP m ++ chPieceCurves m ++
  chPiecePoints m ++ chPieceTicket m ++ chPieceSigAlgs m ++ chPieceALPN m ++
  chPieceSCT m

def clientHelloMsg.body (m : clientHelloMsg) : List Nat :=
  u16be m.vers ++ m.random ++ u8vec m.sessionId ++
  u16vec ((m.cipherSuites.map u16be).flatten) ++
  u8vec m.compressionMethods ++
  (if clientHelloExts m = [] then []
   else u16vec (encodeExts (clientHelloExts m)))

def clientHelloMsg.marshal (m : clientHelloMsg) : List Nat :=
  mkMsg typeClientHello m.body

/-- Apply one parsed extension entry to the message being built; unknown
extension types are skipped. -/
def applyCHExt (m : clientHelloMsg) (t : Nat) (p : List Nat) :
    Option clientHelloMsg :=
  if t = extensionServerName then
    match readU16Vec p with
    | some (entry, []) =>
      (match entry with
       | 0 :: rest =>
         (match readU16Vec rest with
          | some (name, []) => some { m with serverName := name }
          | _ => none)
       | _ => none)
    | _ => none
  else if t = extensionStatusRequest then some { m with ocspStapling := true }
  else if t = extensionSupportedCurves then
    match readU16Vec p with
    | some (lb, []) =>
      if lb.length % 2 = 1 then none
      else some { m with supportedCurves := pairsToU16 lb }
    | _ => none
  else if t = extensionSupportedPoints then
    match readU8Vec p with
    | some (pts, []) => some { m with supportedPoints := pts }
    | _ => none
  else if t = extensionSessionTicket then
    some { m with ticketSupported := true, sessionTicket := p }
  else if t = extensionSignatureAlgorithms then
    match readU16Vec p with
    | some (lb, []) =>
      if lb.length % 2 = 1 then none
      else some { m with supportedSignatureAlgorithms := pairsToU16 lb }
    | _ => none
  else if t = extensionALPN then
    match readU16Vec p with
    | some (lb, []) =>
      (match parseVecsF readProto lb.length lb with
       | some protos => some { m with alpnProtocols := protos }
       | none => none)
    | _ => none
  else if t = extensionSCT then some { m with scts := true }
  else if t = extensionNextProtoNeg then some { m with nextProtoNeg := true }
  else some m

def applyCHExts : clientHelloMsg → List (Nat × List Nat) →
    Option clientHelloMsg
  | m, [] => some m
  | m, (t, p) :: rest =>
    match applyCHExt m t p with
    | none => none
    | some m2 => applyCHExts m2 rest

def clientHelloMsg.unmarshal (data : List Nat) : Option clientHelloMsg :=
  match readHeaderLoose data with
  | none => none
  | some body =>
    match readU16 body with
    | none => none
    | some (vers, r1) =>
      match readBytes 32 r1 with
      | none => none
      | some (random, r2) =>
        match readU8Vec r2 with
        | none => none
        | some (sessionId, r3) =>
          match readU16Vec r3 with
          | none => none
          | some (csBytes, r4) =>
            if csBytes.length % 2 = 1 then none
            else
              match readU8Vec r4 with
              | none => none
              | some (compressions, r5) =>
                let base : clientHelloMsg :=
                  { vers := vers, random := random, sessionId := sessionId,
                    cipherSuites := pairsToU16 csBytes,
                    compressionMethods := compressions,
                    nextProtoNeg := false, serverName := [],
                    ocspStapling := false, supportedCurves := [],
                    supportedPoints := [], ticketSupported := false,
                    sessionTicket := [],
                    supportedSignatureAlgorithms := [],
                    alpnProtocols := [], scts := false }
                if r5 = [] then some base
                else
                  match readU16Vec r5 with
                  | none => none
                  | some (extBytes, r6) =>
                    if r6 = [] then
                      match parseExts extBytes with
                      | none => none
                      | some exts => applyCHExts base exts
                    else none

def validClientHelloMsg (m : clientHelloMsg) : Prop :=
  m.vers < 65536 ∧
  m.random.length = 32 ∧
  m.sessionId.length < 256 ∧
  (∀ s ∈ m.cipherSuites, s < 65536) ∧
  2 * m.cipherSuites.length < 65536 ∧
  m.compressionMethods.length < 256 ∧
  m.serverName.length + 5 < 65536 ∧
  (∀ c ∈ m.supportedCurves, c < 65536) ∧
  2 * m.supportedCurves.length + 2 < 65536 ∧
  m.supportedPoints.length < 256 ∧
  (¬m.ticketSupported → m.sessionTicket = []) ∧
  m.sessionTicket.length < 65536 ∧
  (∀ a ∈ m.supportedSignatureAlgorithms, a < 65536) ∧
  2 * m.supportedSignatureAlgorithms.length + 2 < 65536 ∧
  (∀ p ∈ m.alpnProtocols, p ≠ [] ∧ p.length < 256) ∧
  ((m.alpnProtocols.map u8vec).flatten).length + 2 < 65536 ∧
  (encodeExts (clientHelloExts m)).length < 65536

instance : ∀ m, Decidable (validClientHelloMsg m) := by
  intro m; unfold validClientHelloMsg; infer_instance

/-! ## ClientHello round-trip -/

theorem applyCHExts_append (m : clientHelloMsg)
    (a b : List (Nat × List Nat)) :
    applyCHExts m (a ++ b) =
      match applyCHExts m a with
      | none => none
      | some m2 => applyCHExts m2 b := by
  induction a generalizing m with
  | nil => rfl
  | cons e rest ih =>
    obtain ⟨t, p⟩ := e
    simp only [List.cons_append, applyCHExts]
    cases applyCHExt m t p with
    | none => rfl
    | some m2 => exact ih m2

theorem applyCHExts_chPieceNPN (cur src : clientHelloMsg)
    (hc : cur.nextProtoNeg = false) :
    applyCHExts cur (chPieceNPN src) =
      some { cur with nextProtoNeg := src.nextProtoNeg } := by
  cases hs : src.nextProtoNeg with
  | true =>
    simp [chPieceNPN, hs, applyCHExts, applyCHExt, extensionServerName,
      extensionStatusRequest, extensionSupportedCurves,
      extensionSupportedPoints, extensionSessionTicket,
      extensionSignatureAlgorithms, extensionALPN, extensionSCT,
      extensionNextProtoNeg]
  | false =>
    simp only [chPieceNPN, hs, Bool.false_eq_true, if_false, applyCHExts]
    rw [← hc]

theorem applyCHExts_chPieceSNI (cur src : clientHelloMsg)
    (hc : cur.serverName = [])
    (hlen : src.serverName.length + 5 < 65536) :
    applyCHExts cur (chPieceSNI src) =
      some { cur with serverName := src.serverName } := by
  by_cases hs : src.serverName = []
  · simp only [chPieceSNI, hs, ne_eq, not_true_eq_false, if_false,
      applyCHExts]
    rw [← hc]
  · have hinner : (0 :: u16vec src.serverName).length < 65536 := by
      simp only [List.length_cons, u16vec_length]
      omega
    have h1 : readU16Vec (sniPayload src.serverName) =
        some (0 :: u16vec src.serverName, []) := by
      unfold sniPayload
      exact readU16Vec_enc_nil hinner
    have h2 : readU16Vec (u16vec src.serverName) =
        some (src.serverName, []) :=
      readU16Vec_enc_nil (by omega)
    simp [chPieceSNI, hs, applyCHExts, applyCHExt, extensionServerName,
      h1, h2]

theorem applyCHExts_chPieceOCSP (cur src : clientHelloMsg)
    (hc : cur.ocspStapling = false) :
    applyCHExts cur (chPieceOCSP src) =
      some { cur with ocspStapling := src.ocspStapling } := by
  cases hs : src.ocspStapling with
  | true =>
    simp [chPieceOCSP, hs, applyCHExts, applyCHExt, extensionServerName,
      extensionStatusRequest]
  | false =>
    simp only [chPieceOCSP, hs, Bool.false_eq_true, if_false, applyCHExts]
    rw [← hc]

theorem applyCHExts_chPieceCurves (cur src : clientHelloMsg)
    (hc : cur.supportedCurves = [])
    (helems : ∀ c ∈ src.supportedCurves, c < 65536)
    (hlen : 2 * src.supportedCurves.length + 2 < 65536) :
    applyCHExts cur (chPieceCurves src) =
      some { cur with supportedCurves := src.supportedCurves } := by
  by_cases hs : src.supportedCurves = []
  · simp only [chPieceCurves, hs, ne_eq, not_true_eq_false, if_false,
      applyCHExts]
    rw [← hc]
  · have hflat := flatten_map_u16be_length src.supportedCurves
    have h1 : readU16Vec (curvesPayload src.supportedCurves) =
        some ((src.supportedCurves.map u16be).flatten, []) := by
      unfold curvesPayload
      exact readU16Vec_enc_nil (by omega)
    simp [chPieceCurves, hs, applyCHExts, applyCHExt, extensionServerName,
      extensionStatusRequest, extensionSupportedCurves, h1, hflat,
      Nat.mul_mod_right, pairsToU16_enc helems]

theorem applyCHExts_chPiecePoints (cur src : clientHelloMsg)
    (hc : cur.supportedPoints = []) :
    applyCHExts cur (chPiecePoints src) =
      some { cur with supportedPoints := src.supportedPoints } := by
  by_cases hs : src.supportedPoints = []
  · simp only [chPiecePoints, hs, ne_eq, not_true_eq_false, if_false,
      applyCHExts]
    rw [← hc]
  · simp [chPiecePoints, hs, applyCHExts, applyCHExt, extensionServerName,
      extensionStatusRequest, extensionSupportedCurves,
      extensionSupportedPoints, readU8Vec_enc_nil]

theorem applyCHExts_chPieceTicket (cur src : clientHelloMsg)
    (hc1 : cur.ticketSupported = false) (hc2 : cur.sessionTicket = [])
    (habs : ¬src.ticketSupported → src.sessionTicket = []) :
    applyCHExts cur (chPieceTicket src) =
      some { cur with ticketSupported := src.ticketSupported,
                      sessionTicket := src.sessionTicket } := by
  cases hs : src.ticketSupported with
  | true =>
    simp [chPieceTicket, hs, applyCHExts, applyCHExt, extensionServerName,
      extensionStatusRequest, extensionSupportedCurves,
      extensionSupportedPoints, extensionSessionTicket]
  | false =>
    have hst : src.sessionTicket = [] := habs (by simp [hs])
    simp only [chPieceTicket, hs, Bool.false_eq_true, if_false,
      applyCHExts]
    rw [hst, ← hc1, ← hc2]

theorem applyCHExts_chPieceSigAlgs (cur src : clientHelloMsg)
    (hc : cur.supportedSignatureAlgorithms = [])
    (helems : ∀ a ∈ src.supportedSignatureAlgorithms, a < 65536)
    (hlen : 2 * src.supportedSignatureAlgorithms.length + 2 < 65536) :
    applyCHExts cur (chPieceSigAlgs src) =
      some { cur with
        supportedSignatureAlgorithms := src.supportedSignatureAlgorithms } := by
  by_cases hs : src.supportedSignatureAlgorithms = []
  · simp only [chPieceSigAlgs, hs, ne_eq, not_true_eq_false, if_false,
      applyCHExts]
    rw [← hc]
  · have hflat := flatten_map_u16be_length src.supportedSignatureAlgorithms
    have h1 : readU16Vec (sigAlgsPayload src.supportedSignatureAlgorithms) =
        some ((src.supportedSignatureAlgorithms.map u16be).flatten, []) := by
      unfold sigAlgsPayload
      exact readU16Vec_enc_nil (by omega)
    simp [chPieceSigAlgs, hs, applyCHExts, applyCHExt, extensionServerName,
      extensionStatusRequest, extensionSupportedCurves,
      extensionSupportedPoints, extensionSessionTicket,
      extensionSignatureAlgorithms, h1, hflat, Nat.mul_mod_right,
      pairsToU16_enc helems]

theorem applyCHExts_chPieceALPN (cur src : clientHelloMsg)
    (hc : cur.alpnProtocols = [])
    (hprotos : ∀ p ∈ src.alpnProtocols, p ≠ [] ∧ p.length < 256)
    (hlen : ((src.alpnProtocols.map u8vec).flatten).length + 2 < 65536) :
    applyCHExts cur (chPieceALPN src) =
      some { cur with alpnProtocols := src.alpnProtocols } := by
  by_cases hs : src.alpnProtocols = []
  · simp only [chPieceALPN, hs, ne_eq, not_true_eq_false, if_false,
      applyCHExts]
    rw [← hc]
  · have h1 : readU16Vec (alpnPayload src.alpnProtocols) =
        some ((src.alpnProtocols.map u8vec).flatten, []) := by
      unfold alpnPayload
      exact readU16Vec_enc_nil (by omega)
    have h2 := parseVecsF_enc readProto u8vec src.alpnProtocols
      (fun x hx rest => readProto_enc (hprotos x hx).1 rest)
      (fun x _ => u8vec_ne_nil x) _ (le_refl _)
    have hsum : ((src.alpnProtocols.map u8vec).flatten).length =
        (src.alpnProtocols.map (List.length ∘ u8vec)).sum := by
      simp [List.length_flatten, Function.comp]
    have h2s := h2
    rw [hsum] at h2s
    simp [chPieceALPN, hs, applyCHExts, applyCHExt, extensionServerName,
      extensionStatusRequest, extensionSupportedCurves,
      extensionSupportedPoints, extensionSessionTicket,
      extensionSignatureAlgorithms, extensionALPN, h1, h2, h2s]

theorem applyCHExts_chPieceSCT (cur src : clientHelloMsg)
    (hc : cur.scts = false) :
    applyCHExts cur (chPieceSCT src) =
      some { cur with scts := src.scts } := by
  cases hs : src.scts with
  | true =>
    simp [chPieceSCT, hs, applyCHExts, applyCHExt, extensionServerName,
      extensionStatusRequest, extensionSupportedCurves,
      extensionSupportedPoints, extensionSessionTicket,
      extensionSignatureAlgorithms, extensionALPN, extensionSCT]
  | false =>
    simp only [chPieceSCT, hs, Bool.false_eq_true, if_false, applyCHExts]
    rw [← hc]

theorem mem_ite_singleton {α : Type} {e x : α} {c : Prop} [Decidable c]
    (he : e ∈ (if c then [x] else [])) : e = x := by
  by_cases hc : c
  · simpa [hc] using he
  · simp [hc] at he

theorem clientHelloExts_bounds (m : clientHelloMsg)
    (h : validClientHelloMsg m) :
    ∀ e ∈ clientHelloExts m, e.1 < 65536 ∧ e.2.length < 65536 := by
  obtain ⟨hvers, hrand, hsid, hcs, hcslen, hcomp, hsn, hcurv, hcurvlen,
    hpts, htick, hticklen, hsig, hsiglen, halpn, halpnlen, hext⟩ := h
  intro e he
  simp only [clientHelloExts, List.mem_append] at he
  rcases he with ((((((((h1 | h2) | h3) | h4) | h5) | h6) | h7) | h8) | h9)
  · simp only [chPieceNPN] at h1
    rw [mem_ite_singleton h1]
    exact ⟨by norm_num [extensionNextProtoNeg], by simp⟩
  · simp only [chPieceSNI] at h2
    rw [mem_ite_singleton h2]
    refine ⟨by norm_num [extensionServerName], ?_⟩
    dsimp only
    simp only [sniPayload, u16vec_length, List.length_cons]
    omega
  · simp only [chPieceOCSP] at h3
    rw [mem_ite_singleton h3]
    exact ⟨by norm_num [extensionStatusRequest], by simp [ocspPayload]⟩
  · simp only [chPieceCurves] at h4
    rw [mem_ite_singleton h4]
    refine ⟨by norm_num [extensionSupportedCurves], ?_⟩
    dsimp only
    simp only [curvesPayload, u16vec_length, flatten_map_u16be_length]
    omega
  · simp only [chPiecePoints] at h5
    rw [mem_ite_singleton h5]
    refine ⟨by norm_num [extensionSupportedPoints], ?_⟩
    dsimp only
    simp only [u8vec_length]
    omega
  · simp only [chPieceTicket] at h6
    rw [mem_ite_singleton h6]
    refine ⟨by norm_num [extensionSessionTicket], ?_⟩
    dsimp only
    omega
  · simp only [chPieceSigAlgs] at h7
    rw [mem_ite_singleton h7]
    refine ⟨by norm_num [extensionSignatureAlgorithms], ?_⟩
    dsimp only
    simp only [sigAlgsPayload, u16vec_length, flatten_map_u16be_length]
    omega
  · simp only [chPieceALPN] at h8
    rw [mem_ite_singleton h8]
    refine ⟨by norm_num [extensionALPN], ?_⟩
    dsimp only
    simp only [alpnPayload, u16vec_length]
    omega
  · simp only [chPieceSCT] at h9
    rw [mem_ite_singleton h9]
    exact ⟨by norm_num [extensionSCT], by simp⟩

theorem applyCHExts_append_bind (m : clientHelloMsg)
    (a b : List (Nat × List Nat)) :
    applyCHExts m (a ++ b) =
      (applyCHExts m a).bind (fun m2 => applyCHExts m2 b) := by
  rw [applyCHExts_append]
  cases applyCHExts m a with
  | none => rfl
  | some m2 => rfl

theorem clientHelloMsg_roundtrip (m : clientHelloMsg)
    (h : validClientHelloMsg m) :
    clientHelloMsg.unmarshal m.marshal = some m := by
  have hbounds := clientHelloExts_bounds m h
  obtain ⟨vers, random, sid, cs, comps, npn, sname, ocsp, curves, points,
    tick, ticket, sigs, alpns, sct⟩ := m
  simp only [validClientHelloMsg] at h
  obtain ⟨hvers, hrand, hsid, hcs, hcslen, hcomp, hsn, hcurv, hcurvlen,
    hpts, htick, hticklen, hsig, hsiglen, halpn, halpnlen, hext⟩ := h
  have hflatb : ((cs.map u16be).flatten).length < 65536 := by
    rw [flatten_map_u16be_length]; omega
  by_cases hempty : clientHelloExts ⟨vers, random, sid, cs, comps, npn,
      sname, ocsp, curves, points, tick, ticket, sigs, alpns, sct⟩ = []
  · have hemp2 := hempty
    simp only [clientHelloExts, List.append_eq_nil] at hemp2
    obtain ⟨⟨⟨⟨⟨⟨⟨⟨e1, e2⟩, e3⟩, e4⟩, e5⟩, e6⟩, e7⟩, e8⟩, e9⟩ := hemp2
    have hnpn : npn = false := by
      cases npn with
      | false => rfl
      | true => simp [chPieceNPN] at e1
    have hsn0 : sname = [] := by
      by_cases hq : sname = []
      · exact hq
      · simp [chPieceSNI, hq] at e2
    have hocsp : ocsp = false := by
      cases ocsp with
      | false => rfl
      | true => simp [chPieceOCSP] at e3
    have hcurves0 : curves = [] := by
      by_cases hq : curves = []
      · exact hq
      · simp [chPieceCurves, hq] at e4
    have hpoints0 : points = [] := by
      by_cases hq : points = []
      · exact hq
      · simp [chPiecePoints, hq] at e5
    have htick0 : tick = false := by
      cases tick with
      | false => rfl
      | true => simp [chPieceTicket] at e6
    have hticket0 : ticket = [] := htick (by simp [htick0])
    have hsigs0 : sigs = [] := by
      by_cases hq : sigs = []
      · exact hq
      · simp [chPieceSigAlgs, hq] at e7
    have halpns0 : alpns = [] := by
      by_cases hq : alpns = []
      · exact hq
      · simp [chPieceALPN, hq] at e8
    have hsct0 : sct = false := by
      cases sct with
      | false => rfl
      | true => simp [chPieceSCT] at e9
    subst hnpn hsn0 hocsp hcurves0 hpoints0 htick0 hticket0 hsigs0
      halpns0 hsct0
    simp [clientHelloMsg.unmarshal, clientHelloMsg.marshal,
      clientHelloMsg.body, hempty, readHeaderLoose_mkMsg,
      List.append_assoc, readU16_enc hvers, readBytes_enc hrand,
      readU8Vec_enc, readU8Vec_enc_nil, readU16Vec_enc hflatb,
      flatten_map_u16be_length, Nat.mul_mod_right, pairsToU16_enc hcs,
      -List.length_flatten]
  · have hpe : parseExts (encodeExts (clientHelloExts ⟨vers, random, sid,
        cs, comps, npn, sname, ocsp, curves, points, tick, ticket, sigs,
        alpns, sct⟩)) = some (clientHelloExts ⟨vers, random, sid, cs,
        comps, npn, sname, ocsp, curves, points, tick, ticket, sigs,
        alpns, sct⟩) := by
      unfold parseExts
      exact parseExtsF_enc _ hbounds _ (le_refl _)
    simp [clientHelloMsg.unmarshal, clientHelloMsg.marshal,
      clientHelloMsg.body, hempty, readHeaderLoose_mkMsg,
      List.append_assoc, readU16_enc hvers, readBytes_enc hrand,
      readU8Vec_enc, readU16Vec_enc hflatb, flatten_map_u16be_length,
      Nat.mul_mod_right, pairsToU16_enc hcs, u16vec_ne_nil,
      readU16Vec_enc_nil hext, hpe, -List.length_flatten]
    rw [clientHelloExts]
    rw [applyCHExts_append_bind, applyCHExts_append_bind,
      applyCHExts_append_bind, applyCHExts_append_bind,
      applyCHExts_append_bind, applyCHExts_append_bind,
      applyCHExts_append_bind, applyCHExts_append_bind]
    rw [applyCHExts_chPieceNPN _ _ rfl]
    simp only [Option.some_bind]
    rw [applyCHExts_chPieceSNI _ _ rfl hsn]
    simp only [Option.some_bind]
    rw [applyCHExts_chPieceOCSP _ _ rfl]
    simp only [Option.some_bind]
    rw [applyCHExts_chPieceCurves _ _ rfl hcurv hcurvlen]
    simp only [Option.some_bind]
    rw [applyCHExts_chPiecePoints _ _ rfl]
    simp only [Option.some_bind]
    rw [applyCHExts_chPieceTicket _ _ rfl rfl htick]
    simp only [Option.some_bind]
    rw [applyCHExts_chPieceSigAlgs _ _ rfl hsig hsiglen]
    simp only [Option.some_bind]
    rw [applyCHExts_chPieceALPN _ _ rfl halpn halpnlen]
    simp only [Option.some_bind]
    rw [applyCHExts_chPieceSCT _ _ rfl]

/-! ## ServerHello -/

structure serverHelloMsg where
  vers : Nat
  random : List Nat
  sessionId : List Nat
  cipherSuite : Nat
  compressionMethod : Nat
  nextProtoNeg : Bool
  nextProtos : List (List Nat)
  ocspStapling : Bool
  ticketSupported : Bool
  alpnProtocol : List Nat
  scts : List (List Nat)
deriving DecidableEq, Repr

/-- SCT-list payload: 2-byte list byte-length, then 2-byte-length-prefixed
entries. -/
def sctsPayload (scts : List (List Nat)) : List Nat :=
  u16vec ((scts.map u16vec).flatten)

def shPieceNPN (m : serverHelloMsg) : List (Nat × List Nat) :=
  if m.nextProtoNeg then
    [(extensionNextProtoNeg, (m.nextProtos.map u8vec).flatten)]
  else []

def shPieceOCSP (m : serverHelloMsg) : List (Nat × List Nat) :=
  if m.ocspStapling then [(extensionStatusRequest, [])] else []

def shPieceTicket (m : serverHelloMsg) : List (Nat × List Nat) :=
  if m.ticketSupported then [(extensionSessionTicket, [])] else []

def shPieceALPN (m : serverHelloMsg) : List (Nat × List Nat) :=
  if m.alpnProtocol ≠ [] then
    [(extensionALPN, alpnPayload [m.alpnProtocol])]
  else []

def shPieceSCT (m : serverHelloMsg) : List (Nat × List Nat) :=
  if m.scts ≠ [] then [(extensionSCT, sctsPayload m.scts)] else []

/-- The extension entries of a ServerHello, in marshalling order. -/
def serverHelloExts (m : serverHelloMsg) : List (Nat × List Nat) :=
  shPieceNPN m ++ shPieceOCSP m ++ shPieceTicket m ++ shPieceALPN m ++
  shPieceSCT m

def serverHelloMsg.body (m : serverHelloMsg) : List Nat :=
  u16be m.vers ++ m.random ++ u8vec m.sessionId ++ u16be m.cipherSuite ++
  [m.compressionMethod] ++
  (if serverHelloExts m = [] then []
   else u16vec (encodeExts (serverHelloExts m)))

def serverHelloMsg.marshal (m : serverHelloMsg) : List Nat :=
  mkMsg typeServerHello m.body

/-- Apply one parsed extension entry; the SCT entry enforces the spec's
fatal invariants: a present SCT list must be non-empty and every entry must
be non-empty. -/
def applySHExt (m : serverHelloMsg) (t : Nat) (p : List Nat) :
    Option serverHelloMsg :=
  if t = extensionNextProtoNeg then
    match parseVecsF readProto p.length p with
    | none => none
    | some protos => some { m with nextProtoNeg := true, nextProtos := protos }
  else if t = extensionStatusRequest then some { m with ocspStapling := true }
  else if t = extensionSessionTicket then some { m with ticketSupported := true }
  else if t = extensionALPN then
    match readU16Vec p with
    | some (lb, []) =>
      (match parseVecsF readProto lb.length lb with
       | some [proto] => some { m with alpnProtocol := proto }
       | _ => none)
    | _ => none
  else if t = extensionSCT then
    match readU16Vec p with
    | some (lb, []) =>
      if lb = [] then none
      else
        (match parseVecsF readSCT lb.length lb with
         | none => none
         | some scts => some { m with scts := scts })
    | _ => none
  else some m

def applySHExts : serverHelloMsg → List (Nat × List Nat) →
    Option serverHelloMsg
  | m, [] => some m
  | m, (t, p) :: rest =>
    match applySHExt m t p with
    | none => none
    | some m2 => applySHExts m2 rest

def serverHelloMsg.unmarshal (data : List Nat) : Option serverHelloMsg :=
  match readHeaderLoose data with
  | none => none
  | some body =>
    match readU16 body with
    | none => none
    | some (vers, r1) =>
      match readBytes 32 r1 with
      | none => none
      | some (random, r2) =>
        match readU8Vec r2 with
        | none => none
        | some (sessionId, r3) =>
          match readU16 r3 with
          | none => none
          | some (suite, r4) =>
            match readU8 r4 with
            | none => none
            | some (comp, r5) =>
              let base : serverHelloMsg :=
                { vers := vers, random := random, sessionId := sessionId,
                  cipherSuite := suite, compressionMethod := comp,
                  nextProtoNeg := false, nextProtos := [],
                  ocspStapling := false, ticketSupported := false,
                  alpnProtocol := [], scts := [] }
              if r5 = [] then some base
              else
                match readU16Vec r5 with
                | none => none
                | some (extBytes, r6) =>
                  if r6 = [] then
                    match parseExts extBytes with
                    | none => none
                    | some exts => applySHExts base exts
                  else none

def validServerHelloMsg (m : serverHelloMsg) : Prop :=
  m.vers < 65536 ∧
  m.random.length = 32 ∧
  m.sessionId.length < 256 ∧
  m.cipherSuite < 65536 ∧
  m.compressionMethod < 256 ∧
  (¬m.nextProtoNeg → m.nextProtos = []) ∧
  (∀ p ∈ m.nextProtos, p ≠ [] ∧ p.length < 256) ∧
  ((m.nextProtos.map u8vec).flatten).length < 65536 ∧
  m.alpnProtocol.length < 256 ∧
  (∀ s ∈ m.scts, s ≠ [] ∧ s.length < 65536) ∧
  ((m.scts.map u16vec).flatten).length + 2 < 65536 ∧
  (encodeExts (serverHelloExts m)).length < 65536

instance : ∀ m, Decidable (validServerHelloMsg m) := by
  intro m; unfold validServerHelloMsg; infer_instance

theorem applySHExts_append (m : serverHelloMsg)
    (a b : List (Nat × List Nat)) :
    applySHExts m (a ++ b) =
      match applySHExts m a with
      | none => none
      | some m2 => applySHExts m2 b := by
  induction a generalizing m with
  | nil => rfl
  | cons e rest ih =>
    obtain ⟨t, p⟩ := e
    simp only [List.cons_append, applySHExts]
    cases applySHExt m t p with
    | none => rfl
    | some m2 => exact ih m2

theorem applySHExts_append_bind (m : serverHelloMsg)
    (a b : List (Nat × List Nat)) :
    applySHExts m (a ++ b) =
      (applySHExts m a).bind (fun m2 => applySHExts m2 b) := by
  rw [applySHExts_append]
  cases applySHExts m a with
  | none => rfl
  | some m2 => rfl

theorem applySHExts_shPieceNPN (cur src : serverHelloMsg)
    (hc1 : cur.nextProtoNeg = false) (hc2 : cur.nextProtos = [])
    (habs : ¬src.nextProtoNeg → src.nextProtos = [])
    (hprotos : ∀ p ∈ src.nextProtos, p ≠ [] ∧ p.length < 256) :
    applySHExts cur (shPieceNPN src) =
      some { cur with nextProtoNeg := src.nextProtoNeg,
                      nextProtos := src.nextProtos } := by
  cases hs : src.nextProtoNeg with
  | true =>
    have h2 := parseVecsF_enc readProto u8vec src.nextProtos
      (fun x hx rest => readProto_enc (hprotos x hx).1 rest)
      (fun x _ => u8vec_ne_nil x) _ (le_refl _)
    simp [shPieceNPN, hs, applySHExts, applySHExt, extensionNextProtoNeg,
      h2, -List.length_flatten]
  | false =>
    have hnp : src.nextProtos = [] := habs (by simp [hs])
    simp only [shPieceNPN, hs, Bool.false_eq_true, if_false, applySHExts]
    rw [hnp, ← hc1, ← hc2]

theorem applySHExts_shPieceOCSP (cur src : serverHelloMsg)
    (hc : cur.ocspStapling = false) :
    applySHExts cur (shPieceOCSP src) =
      some { cur with ocspStapling := src.ocspStapling } := by
  cases hs : src.ocspStapling with
  | true =>
    simp [shPieceOCSP, hs, applySHExts, applySHExt, extensionNextProtoNeg,
      extensionStatusRequest]
  | false =>
    simp only [shPieceOCSP, hs, Bool.false_eq_true, if_false, applySHExts]
    rw [← hc]

theorem applySHExts_shPieceTicket (cur src : serverHelloMsg)
    (hc : cur.ticketSupported = false) :
    applySHExts cur (shPieceTicket src) =
      some { cur with ticketSupported := src.ticketSupported } := by
  cases hs : src.ticketSupported with
  | true =>
    simp [shPieceTicket, hs, applySHExts, applySHExt, extensionNextProtoNeg,
      extensionStatusRequest, extensionSessionTicket]
  | false =>
    simp only [shPieceTicket, hs, Bool.false_eq_true, if_false, applySHExts]
    rw [← hc]

theorem applySHExts_shPieceALPN (cur src : serverHelloMsg)
    (hc : cur.alpnProtocol = [])
    (hlen : src.alpnProtocol.length < 256) :
    applySHExts cur (shPieceALPN src) =
      some { cur with alpnProtocol := src.alpnProtocol } := by
  by_cases hs : src.alpnProtocol = []
  · simp only [shPieceALPN, hs, ne_eq, not_true_eq_false, if_false,
      applySHExts]
    rw [← hc]
  · have hflat : (([src.alpnProtocol]).map u8vec).flatten =
        u8vec src.alpnProtocol := by simp
    have h1 : readU16Vec (alpnPayload [src.alpnProtocol]) =
        some (u8vec src.alpnProtocol, []) := by
      unfold alpnPayload
      rw [hflat]
      exact readU16Vec_enc_nil (by rw [u8vec_length]; omega)
    have h2 := parseVecsF_readProto_single hs
    simp [shPieceALPN, hs, applySHExts, applySHExt, extensionNextProtoNeg,
      extensionStatusRequest, extensionSessionTicket, extensionALPN,
      h1, h2, -List.length_flatten]

theorem applySHExts_shPieceSCT (cur src : serverHelloMsg)
    (hc : cur.scts = [])
    (hscts : ∀ s ∈ src.scts, s ≠ [] ∧ s.length < 65536)
    (hlen : ((src.scts.map u16vec).flatten).length + 2 < 65536) :
    applySHExts cur (shPieceSCT src) =
      some { cur with scts := src.scts } := by
  by_cases hs : src.scts = []
  · simp only [shPieceSCT, hs, ne_eq, not_true_eq_false, if_false,
      applySHExts]
    rw [← hc]
  · have h1 : readU16Vec (sctsPayload src.scts) =
        some ((src.scts.map u16vec).flatten, []) := by
      unfold sctsPayload
      exact readU16Vec_enc_nil (by omega)
    have hfne : ((src.scts.map u16vec).flatten) ≠ [] := by
      cases hss : src.scts with
      | nil => exact absurd hss hs
      | cons s rest => simp [u16vec, u16be]
    have h2 := parseVecsF_enc readSCT u16vec src.scts
      (fun x hx rest => readSCT_enc (hscts x hx).1 (hscts x hx).2 rest)
      (fun x _ => u16vec_ne_nil x) _ (le_refl _)
    simp [shPieceSCT, hs, applySHExts, applySHExt, extensionNextProtoNeg,
      extensionStatusRequest, extensionSessionTicket, extensionALPN,
      extensionSCT, h1, hfne, h2, -List.length_flatten]

theorem serverHelloExts_bounds (m : serverHelloMsg)
    (h : validServerHelloMsg m) :
    ∀ e ∈ serverHelloExts m, e.1 < 65536 ∧ e.2.length < 65536 := by
  obtain ⟨hvers, hrand, hsid, hsuite, hcomp, habs, hprotos, hflat8,
    halpn, hscts, hflat16, hext⟩ := h
  intro e he
  simp only [serverHelloExts, List.mem_append] at he
  rcases he with ((((h1 | h2) | h3) | h4) | h5)
  · simp only [shPieceNPN] at h1
    rw [mem_ite_singleton h1]
    refine ⟨by norm_num [extensionNextProtoNeg], ?_⟩
    dsimp only
    omega
  · simp only [shPieceOCSP] at h2
    rw [mem_ite_singleton h2]
    exact ⟨by norm_num [extensionStatusRequest], by simp⟩
  · simp only [shPieceTicket] at h3
    rw [mem_ite_singleton h3]
    exact ⟨by norm_num [extensionSessionTicket], by simp⟩
  · simp only [shPieceALPN] at h4
    rw [mem_ite_singleton h4]
    refine ⟨by norm_num [extensionALPN], ?_⟩
    dsimp only
    simp only [alpnPayload, u16vec_length, List.map_cons, List.map_nil,
      List.flatten_cons, List.flatten_nil, List.append_nil, u8vec_length]
    omega
  · simp only [shPieceSCT] at h5
    rw [mem_ite_singleton h5]
    refine ⟨by norm_num [extensionSCT], ?_⟩
    dsimp only
    simp only [sctsPayload, u16vec_length]
    omega

theorem serverHelloMsg_roundtrip (m : serverHelloMsg)
    (h : validServerHelloMsg m) :
    serverHelloMsg.unmarshal m.marshal = some m := by
  have hbounds := serverHelloExts_bounds m h
  obtain ⟨vers, random, sid, suite, comp, npn, protos, ocsp, tick, alpn,
    scts⟩ := m
  simp only [validServerHelloMsg] at h
  obtain ⟨hvers, hrand, hsid, hsuite, hcomp, habs, hprotos, hflat8,
    halpn, hscts, hflat16, hext⟩ := h
  by_cases hempty : serverHelloExts ⟨vers, random, sid, suite, comp, npn,
      protos, ocsp, tick, alpn, scts⟩ = []
  · have hemp2 := hempty
    simp only [serverHelloExts, List.append_eq_nil] at hemp2
    obtain ⟨⟨⟨⟨e1, e2⟩, e3⟩, e4⟩, e5⟩ := hemp2
    have hnpn : npn = false := by
      cases npn with
      | false => rfl
      | true => simp [shPieceNPN] at e1
    have hprotos0 : protos = [] := habs (by simp [hnpn])
    have hocsp : ocsp = false := by
      cases ocsp with
      | false => rfl
      | true => simp [shPieceOCSP] at e2
    have htick0 : tick = false := by
      cases tick with
      | false => rfl
      | true => simp [shPieceTicket] at e3
    have halpn0 : alpn = [] := by
      by_cases hq : alpn = []
      · exact hq
      · simp [shPieceALPN, hq] at e4
    have hscts0 : scts = [] := by
      by_cases hq : scts = []
      · exact hq
      · simp [shPieceSCT, hq] at e5
    subst hnpn hprotos0 hocsp htick0 halpn0 hscts0
    simp [serverHelloMsg.unmarshal, serverHelloMsg.marshal,
      serverHelloMsg.body, hempty, readHeaderLoose_mkMsg,
      List.append_assoc, readU16_enc hvers, readBytes_enc hrand,
      readU8Vec_enc, readU8Vec_enc_nil, readU16_enc hsuite, readU8,
      -List.length_flatten]
  · have hpe : parseExts (encodeExts (serverHelloExts ⟨vers, random, sid,
        suite, comp, npn, protos, ocsp, tick, alpn, scts⟩)) =
        some (serverHelloExts ⟨vers, random, sid, suite, comp, npn,
          protos, ocsp, tick, alpn, scts⟩) := by
      unfold parseExts
      exact parseExtsF_enc _ hbounds _ (le_refl _)
    simp [serverHelloMsg.unmarshal, serverHelloMsg.marshal,
      serverHelloMsg.body, hempty, readHeaderLoose_mkMsg,
      List.append_assoc, readU16_enc hvers, readBytes_enc hrand,
      readU8Vec_enc, readU16_enc hsuite, readU8, u16vec_ne_nil,
      readU16Vec_enc_nil hext, hpe, -List.length_flatten]
    rw [serverHelloExts]
    rw [applySHExts_append_bind, applySHExts_append_bind,
      applySHExts_append_bind, applySHExts_append_bind]
    rw [applySHExts_shPieceNPN _ _ rfl rfl habs hprotos]
    simp only [Option.some_bind]
    rw [applySHExts_shPieceOCSP _ _ rfl]
    simp only [Option.some_bind]
    rw [applySHExts_shPieceTicket _ _ rfl]
    simp only [Option.some_bind]
    rw [applySHExts_shPieceALPN _ _ rfl halpn]
    simp only [Option.some_bind]
    rw [applySHExts_shPieceSCT _ _ rfl hscts hflat16]

/-! ## Totality and allocation bounds (for the fuzz-robustness claim) -/

theorem readBytes_consume {n : Nat} {d x r : List Nat}
    (h : readBytes n d = some (x, r)) : x.length + r.length ≤ d.length := by
  unfold readBytes at h
  by_cases hn : n ≤ d.length
  · rw [if_pos hn] at h
    injection h with h1
    injection h1 with hx hr
    subst hx hr
    simp only [List.length_take, List.length_drop]
    omega
  · rw [if_neg hn] at h
    cases h

theorem readU24Vec_consume {d x r : List Nat}
    (h : readU24Vec d = some (x, r)) : x.length + r.length ≤ d.length := by
  cases d with
  | nil => simp [readU24Vec, readU24] at h
  | cons b1 d1 =>
    cases d1 with
    | nil => simp [readU24Vec, readU24] at h
    | cons b2 d2 =>
      cases d2 with
      | nil => simp [readU24Vec, readU24] at h
      | cons b3 rest =>
        simp only [readU24Vec, readU24] at h
        have := readBytes_consume h
        simp only [List.length_cons]
        omega

theorem parseVecsF_consume (rd : List Nat → Option (List Nat × List Nat))
    (hrd : ∀ d x r, rd d = some (x, r) → x.length + r.length ≤ d.length) :
    ∀ fuel data l, parseVecsF rd fuel data = some l →
      (l.map List.length).sum ≤ data.length := by
  intro fuel
  induction fuel with
  | zero =>
    intro data l h
    cases data with
    | nil =>
      simp only [parseVecsF] at h
      injection h with h1
      subst h1
      simp
    | cons b rest => simp [parseVecsF] at h
  | succ f ih =>
    intro data l h
    cases data with
    | nil =>
      simp only [parseVecsF] at h
      injection h with h1
      subst h1
      simp
    | cons b rest =>
      rw [parseVecsF_step rd f _ (by simp)] at h
      cases hrd1 : rd (b :: rest) with
      | none =>
        simp only [hrd1] at h
        exact Option.noConfusion h
      | some pr =>
        obtain ⟨x, r⟩ := pr
        simp only [hrd1] at h
        cases hrec : parseVecsF rd f r with
        | none =>
          simp only [hrec] at h
          exact Option.noConfusion h
        | some xs =>
          simp only [hrec] at h
          injection h with h1
          subst h1
          have hb1 := hrd _ _ _ hrd1
          have hb2 := ih r xs hrec
          simp only [List.map_cons, List.sum_cons]
          omega

theorem readHeaderExact_le {data body : List Nat}
    (h : readHeaderExact data = some body) : body.length ≤ data.length := by
  unfold readHeaderExact at h
  split at h
  · split at h
    · injection h with h1
      subst h1
      simp only [List.length_cons]
      omega
    · cases h
  · cases h

theorem certificateMsg_alloc_bound (data : List Nat) (m : certificateMsg)
    (h : certificateMsg.unmarshal data = some m) :
    (m.certificates.map List.length).sum ≤ data.length := by
  unfold certificateMsg.unmarshal at h
  cases h1 : readHeaderExact data with
  | none =>
    simp only [h1] at h
    exact Option.noConfusion h
  | some body =>
    simp only [h1] at h
    cases h2 : readU24Vec body with
    | none =>
      simp only [h2] at h
      exact Option.noConfusion h
    | some pr =>
      obtain ⟨lb, rest⟩ := pr
      simp only [h2] at h
      cases rest with
      | cons a b => simp at h
      | nil =>
        cases h3 : parseVecsF readU24Vec lb.length lb with
        | none =>
          simp only [h3] at h
          exact Option.noConfusion h
        | some certs =>
          simp only [h3] at h
          injection h with h4
          subst h4
          have hb := parseVecsF_consume readU24Vec
            (fun d x r hd => readU24Vec_consume hd) _ _ _ h3
          have hhdr := readHeaderExact_le h1
          have hlb := readU24Vec_consume h2
          simp only [List.length_nil] at hlb
          dsimp only
          omega

/-! ## Concrete witness messages -/

def chW : clientHelloMsg :=
  ⟨771, List.replicate 32 0, [1, 2], [10, 20], [0], true, [97, 98], true,
    [23, 24], [0], true, [5, 6], [1027], [[104, 50]], true⟩

def shW : serverHelloMsg :=
  ⟨771, List.replicate 32 0, [9], 5, 1, true, [[110, 112]], true, true,
    [104], [[66, 66]]⟩

def certW : certificateMsg := ⟨[[1, 2], []]⟩
def creqW : certificateRequestMsg := ⟨[1], [[3, 4]]⟩
def cverW : certificateVerifyMsg := ⟨[9, 9]⟩
def cstW : certificateStatusMsg := ⟨1, [7]⟩
def ckxW : clientKeyExchangeMsg := ⟨[1, 2, 3]⟩
def finW : finishedMsg := ⟨List.replicate 12 3⟩
def npW : nextProtoMsg := ⟨[104, 50]⟩
def nstW : newSessionTicketMsg := ⟨[1, 2, 3, 4]⟩
def ssW : sessionState := ⟨771, 10, [1, 2], [[5], [6, 7]]⟩

/-! ## SCT test vectors (spec §8) -/

/-- A ServerHello with one 4-byte SCT entry `0x42 0x42 0x42 0x42`. -/
def singleSCTServerHello : serverHelloMsg :=
  ⟨VersionTLS12, List.replicate 32 0, [], 0, 0, false, [], false, false,
    [], [[0x42, 0x42, 0x42, 0x42]]⟩

/-- A ServerHello whose single SCT entry has length zero. -/
def zeroLenSCTServerHello : serverHelloMsg :=
  ⟨VersionTLS12, List.replicate 32 0, [], 0, 0, false, [], false, false,
    [], [[]]⟩

/-- A hand-built ServerHello encoding whose SCT-list extension is present
with a list length field of 0 (extension bytes: type 0x0012, length 2,
payload `00 00`). -/
def emptySCTListServerHello : List Nat :=
  mkMsg typeServerHello
    (u16be VersionTLS12 ++ List.replicate 32 0 ++ [0] ++ u16be 0 ++ [0] ++
      u16vec [0, 18, 0, 2, 0, 0])

/-! ## Claim theorems -/

/-- C1: for every handshake message variant and every valid instance `m`,
`unmarshal (marshal m)` succeeds and yields a value structurally equal to
`m` (absent optional fields round-trip as absent), and marshaling the
parsed value again produces bytes identical to the original `marshal m`. -/
theorem C1_marshal_unmarshal_roundtrip :
    (∀ m : clientHelloMsg, validClientHelloMsg m →
      clientHelloMsg.unmarshal m.marshal = some m ∧
      ∀ m2, clientHelloMsg.unmarshal m.marshal = some m2 →
        m2.marshal = m.marshal) ∧
    (∀ m : serverHelloMsg, validServerHelloMsg m →
      serverHelloMsg.unmarshal m.marshal = some m ∧
      ∀ m2, serverHelloMsg.unmarshal m.marshal = some m2 →
        m2.marshal = m.marshal) ∧
    (∀ m : finishedMsg, validFinishedMsg m →
      finishedMsg.unmarshal m.marshal = some m ∧
      ∀ m2, finishedMsg.unmarshal m.marshal = some m2 →
        m2.marshal = m.marshal) ∧
    (∀ m : certificateMsg, validCertificateMsg m →
      certificateMsg.unmarshal m.marshal = some m ∧
      ∀ m2, certificateMsg.unmarshal m.marshal = some m2 →
        m2.marshal = m.marshal) ∧
    (∀ m : certificateRequestMsg, validCertificateRequestMsg m →
      certificateRequestMsg.unmarshal m.marshal = some m ∧
      ∀ m2, certificateRequestMsg.unmarshal m.marshal = some m2 →
        m2.marshal = m.marshal) ∧
    (∀ m : certificateVerifyMsg, validCertificateVerifyMsg m →
      certificateVerifyMsg.unmarshal m.marshal = some m ∧
      ∀ m2, certificateVerifyMsg.unmarshal m.marshal = some m2 →
        m2.marshal = m.marshal) ∧
    (∀ m : certificateStatusMsg, validCertificateStatusMsg m →
      certificateStatusMsg.unmarshal m.marshal = some m ∧
      ∀ m2, certificateStatusMsg.unmarshal m.marshal = some m2 →
        m2.marshal = m.marshal) ∧
    (∀ m : clientKeyExchangeMsg, validClientKeyExchangeMsg m →
      clientKeyExchangeMsg.unmarshal m.marshal = some m ∧
      ∀ m2, clientKeyExchangeMsg.unmarshal m.marshal = some m2 →
        m2.marshal = m.marshal) ∧
    (∀ m : nextProtoMsg, validNextProtoMsg m →
      nextProtoMsg.unmarshal m.marshal = some m ∧
      ∀ m2, nextProtoMsg.unmarshal m.marshal = some m2 →
        m2.marshal = m.marshal) ∧
    (∀ m : newSessionTicketMsg, validNewSessionTicketMsg m →
      newSessionTicketMsg.unmarshal m.marshal = some m ∧
      ∀ m2, newSessionTicketMsg.unmarshal m.marshal = some m2 →
        m2.marshal = m.marshal) ∧
    (∀ s : sessionState, validSessionState s →
      sessionState.unmarshal s.marshal = some s ∧
      ∀ s2, sessionState.unmarshal s.marshal = some s2 →
        s2.marshal = s.marshal) := by
  refine ⟨fun m h => ⟨clientHelloMsg_roundtrip m h, ?_⟩,
    fun m h => ⟨serverHelloMsg_roundtrip m h, ?_⟩,
    fun m h => ⟨finishedMsg_roundtrip m, ?_⟩,
    fun m h => ⟨certificateMsg_roundtrip m h, ?_⟩,
    fun m h => ⟨certificateRequestMsg_roundtrip m h, ?_⟩,
    fun m h => ⟨certificateVerifyMsg_roundtrip m h, ?_⟩,
    fun m h => ⟨certificateStatusMsg_roundtrip m h, ?_⟩,
    fun m h => ⟨clientKeyExchangeMsg_roundtrip m h, ?_⟩,
    fun m h => ⟨nextProtoMsg_roundtrip m h, ?_⟩,
    fun m h => ⟨newSessionTicketMsg_roundtrip m h, ?_⟩,
    fun s h => ⟨sessionState_roundtrip s h, ?_⟩⟩
  · intro m2 h2
    rw [clientHelloMsg_roundtrip m h] at h2
    injection h2 with h3
    subst h3
    rfl
  · intro m2 h2
    rw [serverHelloMsg_roundtrip m h] at h2
    injection h2 with h3
    subst h3
    rfl
  · intro m2 h2
    rw [finishedMsg_roundtrip m] at h2
    injection h2 with h3
    subst h3
    rfl
  · intro m2 h2
    rw [certificateMsg_roundtrip m h] at h2
    injection h2 with h3
    subst h3
    rfl
  · intro m2 h2
    rw [certificateRequestMsg_roundtrip m h] at h2
    injection h2 with h3
    subst h3
    rfl
  · intro m2 h2
    rw [certificateVerifyMsg_roundtrip m h] at h2
    injection h2 with h3
    subst h3
    rfl
  · intro m2 h2
    rw [certificateStatusMsg_roundtrip m h] at h2
    injection h2 with h3
    subst h3
    rfl
  · intro m2 h2
    rw [clientKeyExchangeMsg_roundtrip m h] at h2
    injection h2 with h3
    subst h3
    rfl
  · intro m2 h2
    rw [nextProtoMsg_roundtrip m h] at h2
    injection h2 with h3
    subst h3
    rfl
  · intro m2 h2
    rw [newSessionTicketMsg_roundtrip m h] at h2
    injection h2 with h3
    subst h3
    rfl
  · intro s2 h2
    rw [sessionState_roundtrip s h] at h2
    injection h2 with h3
    subst h3
    rfl

/-- C1 witness: the round-trip law instantiated at a concrete valid message
of each variant. -/
theorem C1_witness :
    clientHelloMsg.unmarshal chW.marshal = some chW ∧
    serverHelloMsg.unmarshal shW.marshal = some shW ∧
    finishedMsg.unmarshal finW.marshal = some finW ∧
    certificateMsg.unmarshal certW.marshal = some certW ∧
    certificateRequestMsg.unmarshal creqW.marshal = some creqW ∧
    certificateVerifyMsg.unmarshal cverW.marshal = some cverW ∧
    certificateStatusMsg.unmarshal cstW.marshal = some cstW ∧
    clientKeyExchangeMsg.unmarshal ckxW.marshal = some ckxW ∧
    nextProtoMsg.unmarshal npW.marshal = some npW ∧
    newSessionTicketMsg.unmarshal nstW.marshal = some nstW ∧
    sessionState.unmarshal ssW.marshal = some ssW :=
  ⟨(C1_marshal_unmarshal_roundtrip.1 chW (by decide)).1,
   (C1_marshal_unmarshal_roundtrip.2.1 shW (by decide)).1,
   (C1_marshal_unmarshal_roundtrip.2.2.1 finW (by decide)).1,
   (C1_marshal_unmarshal_roundtrip.2.2.2.1 certW (by decide)).1,
   (C1_marshal_unmarshal_roundtrip.2.2.2.2.1 creqW (by decide)).1,
   (C1_marshal_unmarshal_roundtrip.2.2.2.2.2.1 cverW (by decide)).1,
   (C1_marshal_unmarshal_roundtrip.2.2.2.2.2.2.1 cstW (by decide)).1,
   (C1_marshal_unmarshal_roundtrip.2.2.2.2.2.2.2.1 ckxW (by decide)).1,
   (C1_marshal_unmarshal_roundtrip.2.2.2.2.2.2.2.2.1 npW (by decide)).1,
   (C1_marshal_unmarshal_roundtrip.2.2.2.2.2.2.2.2.2.1 nstW (by decide)).1,
   (C1_marshal_unmarshal_roundtrip.2.2.2.2.2.2.2.2.2.2 ssW (by decide)).1⟩

/-- C2: for each of the eight variants with no optional trailing section
(Certificate, CertificateRequest, CertificateVerify, CertificateStatus,
ClientKeyExchange, NextProtoMsg, NewSessionTicket, SessionState) and every
valid encoding `b` of length `L`, `unmarshal` applied to the proper byte
prefix `b.take k` fails for every `k < L`.  ClientHello, ServerHello and
Finished are exempt. -/
theorem C2_truncation_rejected :
    (∀ m : certificateMsg, validCertificateMsg m →
      ∀ k < m.marshal.length,
        certificateMsg.unmarshal (m.marshal.take k) = none) ∧
    (∀ m : certificateRequestMsg, validCertificateRequestMsg m →
      ∀ k < m.marshal.length,
        certificateRequestMsg.unmarshal (m.marshal.take k) = none) ∧
    (∀ m : certificateVerifyMsg, validCertificateVerifyMsg m →
      ∀ k < m.marshal.length,
        certificateVerifyMsg.unmarshal (m.marshal.take k) = none) ∧
    (∀ m : certificateStatusMsg, validCertificateStatusMsg m →
      ∀ k < m.marshal.length,
        certificateStatusMsg.unmarshal (m.marshal.take k) = none) ∧
    (∀ m : clientKeyExchangeMsg, validClientKeyExchangeMsg m →
      ∀ k < m.marshal.length,
        clientKeyExchangeMsg.unmarshal (m.marshal.take k) = none) ∧
    (∀ m : nextProtoMsg, validNextProtoMsg m →
      ∀ k < m.marshal.length,
        nextProtoMsg.unmarshal (m.marshal.take k) = none) ∧
    (∀ m : newSessionTicketMsg, validNewSessionTicketMsg m →
      ∀ k < m.marshal.length,
        newSessionTicketMsg.unmarshal (m.marshal.take k) = none) ∧
    (∀ s : sessionState, validSessionState s →
      ∀ k < s.marshal.length,
        sessionState.unmarshal (s.marshal.take k) = none) :=
  ⟨fun m h k hk => certificateMsg_truncFails m h k hk,
   fun m h k hk => certificateRequestMsg_truncFails m h k hk,
   fun m h k hk => certificateVerifyMsg_truncFails m h k hk,
   fun m h k hk => certificateStatusMsg_truncFails m h k hk,
   fun m h k hk => clientKeyExchangeMsg_truncFails m h k hk,
   fun m h k hk => nextProtoMsg_truncFails m h k hk,
   fun m h k hk => newSessionTicketMsg_truncFails m h k hk,
   fun s h k hk => sessionState_truncFails s h k hk⟩

/-- C2 witness: truncation of a concrete valid encoding of each of the
eight variants fails to parse. -/
theorem C2_witness :
    certificateMsg.unmarshal (certW.marshal.take 3) = none ∧
    certificateRequestMsg.unmarshal (creqW.marshal.take 5) = none ∧
    certificateVerifyMsg.unmarshal (cverW.marshal.take 5) = none ∧
    certificateStatusMsg.unmarshal (cstW.marshal.take 5) = none ∧
    clientKeyExchangeMsg.unmarshal (ckxW.marshal.take 5) = none ∧
    nextProtoMsg.unmarshal (npW.marshal.take 5) = none ∧
    newSessionTicketMsg.unmarshal (nstW.marshal.take 5) = none ∧
    sessionState.unmarshal (ssW.marshal.take 5) = none :=
  ⟨C2_truncation_rejected.1 certW (by decide) 3 (by decide),
   C2_truncation_rejected.2.1 creqW (by decide) 5 (by decide),
   C2_truncation_rejected.2.2.1 cverW (by decide) 5 (by decide),
   C2_truncation_rejected.2.2.2.1 cstW (by decide) 5 (by decide),
   C2_truncation_rejected.2.2.2.2.1 ckxW (by decide) 5 (by decide),
   C2_truncation_rejected.2.2.2.2.2.1 npW (by decide) 5 (by decide),
   C2_truncation_rejected.2.2.2.2.2.2.1 nstW (by decide) 5 (by decide),
   C2_truncation_rejected.2.2.2.2.2.2.2 ssW (by decide) 5 (by decide)⟩

/-- C3: every variant's `unmarshal` is a total function over all byte
inputs — it returns a parsed value or the failure signal `none`, never
anything else — and a parser that builds lists from length fields allocates
no more than the input provides: a parsed Certificate's total certificate
byte size is bounded by the input length. -/
theorem C3_parse_total_and_bounded :
    (∀ data : List Nat,
      (clientHelloMsg.unmarshal data = none ∨
        ∃ m, clientHelloMsg.unmarshal data = some m) ∧
      (serverHelloMsg.unmarshal data = none ∨
        ∃ m, serverHelloMsg.unmarshal data = some m) ∧
      (finishedMsg.unmarshal data = none ∨
        ∃ m, finishedMsg.unmarshal data = some m) ∧
      (certificateMsg.unmarshal data = none ∨
        ∃ m, certificateMsg.unmarshal data = some m) ∧
      (certificateRequestMsg.unmarshal data = none ∨
        ∃ m, certificateRequestMsg.unmarshal data = some m) ∧
      (certificateVerifyMsg.unmarshal data = none ∨
        ∃ m, certificateVerifyMsg.unmarshal data = some m) ∧
      (certificateStatusMsg.unmarshal data = none ∨
        ∃ m, certificateStatusMsg.unmarshal data = some m) ∧
      (clientKeyExchangeMsg.unmarshal data = none ∨
        ∃ m, clientKeyExchangeMsg.unmarshal data = some m) ∧
      (nextProtoMsg.unmarshal data = none ∨
        ∃ m, nextProtoMsg.unmarshal data = some m) ∧
      (newSessionTicketMsg.unmarshal data = none ∨
        ∃ m, newSessionTicketMsg.unmarshal data = some m) ∧
      (sessionState.unmarshal data = none ∨
        ∃ m, sessionState.unmarshal data = some m)) ∧
    (∀ data m, certificateMsg.unmarshal data = some m →
      (m.certificates.map List.length).sum ≤ data.length) := by
  constructor
  · have tot : ∀ {α : Type} (o : Option α), o = none ∨ ∃ m, o = some m := by
      intro α o
      cases o with
      | none => exact Or.inl rfl
      | some m => exact Or.inr ⟨m, rfl⟩
    intro data
    exact ⟨tot _, tot _, tot _, tot _, tot _, tot _, tot _, tot _, tot _,
      tot _, tot _⟩
  · exact certificateMsg_alloc_bound

/-- C3 witness: the allocation bound instantiated at a concrete parse. -/
theorem C3_witness :
    (certW.certificates.map List.length).sum ≤ certW.marshal.length :=
  C3_parse_total_and_bounded.2 certW.marshal certW (by decide)

/-- C4: parsing a ServerHello whose SCT-list extension is present with list
length 0 fails; parsing a ServerHello whose SCT list contains an entry of
length 0 fails; a ServerHello with the single 4-byte SCT entry
`0x42 0x42 0x42 0x42` parses successfully and round-trips. -/
theorem C4_sct_invariants :
    serverHelloMsg.unmarshal emptySCTListServerHello = none ∧
    serverHelloMsg.unmarshal zeroLenSCTServerHello.marshal = none ∧
    serverHelloMsg.unmarshal singleSCTServerHello.marshal =
      some singleSCTServerHello := by
  refine ⟨by decide, by decide, by decide⟩

/-- C5 counterexample: an empty but non-nil configured cipher-suite list
does NOT yield the full allow-list — `fipsCipherSuites` only falls back to
the default when the slice is nil, so the claim's "empty or unset" fails for
the empty-but-set cipher-suite list. -/
theorem C5_counterexample :
    fipsCipherSuites (some ⟨0, 0, some [], none⟩) = [] ∧
    defaultFIPSCipherSuites ≠ [] := by
  exact ⟨rfl, by decide⟩

/-- C5 (amended): for every configured list that is set (non-nil) the
filter returns the subsequence of the caller's list whose elements are in
the fixed allow-list, preserving the caller's order; the full allow-list is
returned when the Config is nil, when the cipher-suite list is nil, or when
the curve-preference list is nil or empty.  An empty-but-set cipher-suite
list yields the empty list. -/
theorem C5_restrict_filter :
    (∀ (cfg : Config) (l : List Nat), cfg.CipherSuites = some l →
      fipsCipherSuites (some cfg) =
        l.filter (fun id => defaultFIPSCipherSuites.contains id) ∧
      List.Sublist
        (l.filter (fun id => defaultFIPSCipherSuites.contains id)) l) ∧
    fipsCipherSuites none = defaultFIPSCipherSuites ∧
    (∀ cfg : Config, cfg.CipherSuites = none →
      fipsCipherSuites (some cfg) = defaultFIPSCipherSuites) ∧
    (∀ (cfg : Config) (l : List Nat), cfg.CurvePreferences = some l →
      l ≠ [] →
      fipsCurvePreferences (some cfg) =
        l.filter (fun id => defaultFIPSCurvePreferences.contains id) ∧
      List.Sublist
        (l.filter (fun id => defaultFIPSCurvePreferences.contains id)) l) ∧
    fipsCurvePreferences none = defaultFIPSCurvePreferences ∧
    (∀ cfg : Config,
      cfg.CurvePreferences = none ∨ cfg.CurvePreferences = some [] →
      fipsCurvePreferences (some cfg) = defaultFIPSCurvePreferences) := by
  refine ⟨?_, rfl, ?_, ?_, rfl, ?_⟩
  · intro cfg l hl
    refine ⟨?_, List.filter_sublist l⟩
    simp [fipsCipherSuites, hl]
  · intro cfg hc
    simp [fipsCipherSuites, hc]
  · intro cfg l hl hne
    refine ⟨?_, List.filter_sublist l⟩
    simp only [fipsCurvePreferences, hl, goLen]
    rw [if_neg (by simpa using hne)]
    simp
  · intro cfg hc
    rcases hc with hc | hc <;> simp [fipsCurvePreferences, goLen, hc]

/-- C5 witness: the amended filter law at concrete configurations. -/
theorem C5_witness :
    fipsCipherSuites (some ⟨0, 0, some [0xc030, 1, 0x009c], none⟩) =
      [0xc030, 1, 0x009c].filter
        (fun id => defaultFIPSCipherSuites.contains id) ∧
    fipsCurvePreferences (some ⟨0, 0, none, some [25, 99]⟩) =
      [25, 99].filter
        (fun id => defaultFIPSCurvePreferences.contains id) ∧
    fipsCurvePreferences (some ⟨0, 0, none, some []⟩) =
      defaultFIPSCurvePreferences :=
  ⟨(C5_restrict_filter.1 _ _ rfl).1,
   (C5_restrict_filter.2.2.2.1 _ _ rfl (by decide)).1,
   C5_restrict_filter.2.2.2.2.2 _ (Or.inr rfl)⟩

/-- C6: `isBoringCertificate` accepts every certificate when compliance
mode is off; when on, it accepts exactly RSA keys of modulus bit-length
2048 or 3072 and ECDSA keys on P-256 or P-384, and rejects every other
algorithm, curve or size. -/
theorem C6_certificate_acceptability :
    ∀ (needFIPS : Bool) (c : Certificate),
      isBoringCertificate needFIPS c = true ↔
        (needFIPS = false ∨ acceptableFIPSKeySpec c.PublicKey) := by
  intro f c
  cases f with
  | false => simp [isBoringCertificate]
  | true =>
    cases hk : c.PublicKey with
    | rsa n =>
      simp only [isBoringCertificate, Bool.not_true, Bool.false_eq_true,
        if_false, hk, acceptableFIPSKeySpec, Bool.true_eq_false,
        false_or]
      constructor
      · intro hh
        by_cases h1 : BitLen n = 2048
        · exact Or.inl h1
        · by_cases h2 : BitLen n = 3072
          · exact Or.inr h2
          · simp [h1, h2] at hh
      · intro hh
        rcases hh with h1 | h1 <;> simp [h1]
    | ecdsa name =>
      simp only [isBoringCertificate, Bool.not_true, Bool.false_eq_true,
        if_false, hk, acceptableFIPSKeySpec, Bool.true_eq_false,
        false_or]
      constructor
      · intro hh
        by_cases h1 : name = "P-256"
        · exact Or.inl h1
        · by_cases h2 : name = "P-384"
          · exact Or.inr h2
          · simp [h1, h2] at hh
      · intro hh
        rcases hh with h1 | h1 <;> simp [h1]
    | otherKey =>
      simp [isBoringCertificate, hk, acceptableFIPSKeySpec]

/-- C7: P-521 is in the default FIPS curve-preference list and is returned
by `fipsCurvePreferences` for an unset or empty configuration, yet
`isBoringCertificate` rejects an ECDSA P-521 certificate key in compliance
mode — the asymmetry between the two allow-lists. -/
theorem C7_p521_asymmetry :
    CurveP521 ∈ defaultFIPSCurvePreferences ∧
    fipsCurvePreferences none = defaultFIPSCurvePreferences ∧
    CurveP521 ∈ fipsCurvePreferences none ∧
    (∀ cfg : Config,
      cfg.CurvePreferences = none ∨ cfg.CurvePreferences = some [] →
      CurveP521 ∈ fipsCurvePreferences (some cfg)) ∧
    (∀ (raw : List Nat) (serial : Nat),
      isBoringCertificate true ⟨raw, serial, PublicKey.ecdsa "P-521"⟩ =
        false) := by
  refine ⟨by decide, rfl, by decide, ?_, ?_⟩
  · intro cfg hc
    rcases hc with hc | hc <;> simp [fipsCurvePreferences, goLen, hc] <;>
      decide
  · intro raw serial
    rfl

/-- C7 witness: the asymmetry at a concrete empty configuration and a
concrete P-521 certificate. -/
theorem C7_witness :
    CurveP521 ∈ fipsCurvePreferences (some ⟨0, 0, none, some []⟩) ∧
    isBoringCertificate true ⟨[], 0, PublicKey.ecdsa "P-521"⟩ = false :=
  ⟨C7_p521_asymmetry.2.2.2.1 _ (Or.inr rfl),
   C7_p521_asymmetry.2.2.2.2 [] 0⟩

theorem takeWhile_sub {α : Type} (p : α → Bool) (l : List α) :
    List.Sublist (l.takeWhile p) l := by
  induction l with
  | nil => simp
  | cons x xs ih =>
    by_cases hp : p x
    · rw [List.takeWhile_cons, if_pos hp]
      exact List.Sublist.cons₂ x ih
    · rw [List.takeWhile_cons, if_neg hp]
      exact List.nil_sublist _

/-- C8: `supportedSignatureAlgorithms` returns the full default ordered
list when compliance mode is off and, when on, a fixed restricted ordered
sublist of it containing no SHA-1-based scheme and no Ed25519 scheme; the
older `signatureAndHash` version of the function behaves the same way by
taking the prefix before the first SHA-1 entry. -/
theorem C8_supported_signature_algorithms :
    supportedSignatureAlgorithms false = defaultSupportedSignatureAlgorithms ∧
    supportedSignatureAlgorithms true = fipsSupportedSignatureAlgorithms ∧
    List.Sublist (supportedSignatureAlgorithms true)
      defaultSupportedSignatureAlgorithms ∧
    (supportedSignatureAlgorithms true).all
      (fun s => !isSHA1Scheme s && !isEd25519Scheme s) = true ∧
    supportedSignatureAlgorithmsSH false =
      defaultSupportedSignatureAlgorithmsSH ∧
    List.Sublist (supportedSignatureAlgorithmsSH true)
      defaultSupportedSignatureAlgorithmsSH ∧
    (supportedSignatureAlgorithmsSH true).all
      (fun sh => sh.1 != hashSHA1) = true := by
  refine ⟨rfl, rfl, ?_, by decide, rfl, ?_, by decide⟩
  · exact List.sublist_append_left _ _
  · exact takeWhile_sub _ _

/-- C9: under compliance mode the version allow-list is the single mandated
value — for every configuration, including nil, `fipsMinVersion` and
`fipsMaxVersion` return `VersionTLS12`, independent of any field. -/
theorem C9_fips_version_pinned :
    ∀ c : Option Config,
      fipsMinVersion c = VersionTLS12 ∧ fipsMaxVersion c = VersionTLS12 :=
  fun _ => ⟨rfl, rfl⟩

/-- C10: the verdict of `isBoringCertificate` depends only on the
compliance-mode flag and the certificate's public key — two certificates
with equal public keys get the same verdict under the same mode; no other
certificate field influences the result. -/
theorem C10_verdict_key_only :
    ∀ (needFIPS : Bool) (c1 c2 : Certificate),
      c1.PublicKey = c2.PublicKey →
      isBoringCertificate needFIPS c1 = isBoringCertificate needFIPS c2 := by
  intro f c1 c2 h
  unfold isBoringCertificate
  rw [h]

/-- C10 witness: two certificates differing in raw bytes and serial number
but with the same public key get the same verdict. -/
theorem C10_witness :
    isBoringCertificate true ⟨[1, 2], 5, PublicKey.ecdsa "P-256"⟩ =
      isBoringCertificate true ⟨[9], 77, PublicKey.ecdsa "P-256"⟩ :=
  C10_verdict_key_only true _ _ rfl
